import Mathlib

/-!
# wframe: request dispatch pipeline

A shallow embedding of the route resolvers (`route_handle.go`), the request
context (`reqestobj.go`), the error session (`error_handle.go`), the redirect
and alias sessions (`delux_handle.go`) and the dispatcher loop (`handler.go`)
of the `wframe` package, followed by the properties established about them.

Conventions of the embedding

* A Go `[]string` is a `List String`; the `nil` slice and the empty slice are
  both `[]` (every modelled function that tests `== nil` also tests the
  length, except `insertHandle`, whose callers pass `splitePath` results, and
  `splitePath` returns `nil` exactly when it has no segment).
* A Go `map[string]T` is an association list with at most the first binding of
  a key visible; `m[k] = v` replaces that binding in place or appends one.
* A Go `panic` is the `Res.panic` outcome; a function that changes a router
  returns, next to that outcome, the router it leaves, also when it panics.
* Handlers mounted in a router are values of an abstract type `H`; what a
  handler does in `BeginSession` is given by a function `bs`.
-/

namespace Wframe

/-! ## Outcomes of code that may panic -/

/-- Result of running Go code that either returns normally or panics. -/
inductive Res (α : Type) where
  | ok (a : α)
  | panic (msg : String)
  deriving DecidableEq, Repr

/-! ## Go maps as association lists -/

/-- Go `v, ok := m[k]`: `none` when the key is absent. -/
def mapGet {β : Type} : List (String × β) → String → Option β
  | [], _ => none
  | (k, v) :: rest, key => if k = key then some v else mapGet rest key

/-- Go `m[k] = v`: overwrite the binding of `k` or add one. -/
def mapSet {β : Type} : List (String × β) → String → β → List (String × β)
  | [], key, val => [(key, val)]
  | (k, v) :: rest, key, val =>
    if k = key then (k, val) :: rest else (k, v) :: mapSet rest key val

/-! ## The path trie (`frmRtePath.allpath`) -/

/-- A value stored in `allpath`: either a terminal `QHandle` or a nested
`map[string]interface{}`. -/
inductive PathNode (H : Type) where
  | hnd (h : H)
  | dir (m : List (String × PathNode H))

/-- The `interface{}` that `findPath` returns: a map, a handler, or `nil`. -/
abbrev PathMap (H : Type) := List (String × PathNode H)

/-- Instance configuration fields read by the dispatch pipeline
(`InstConfig`). -/
structure InstConfig where
  MaxRedirect : Nat
  Debuging : Bool
  deriving DecidableEq, Repr

/-- Path route struct `frmRtePath` (with the `inst` and `nodes` fields of the
embedded `frmRteBase`). `inst` is `none` until `InitHandler` has run. -/
structure frmRtePath (H : Type) where
  inst : Option InstConfig
  nodes : List (List String × H)
  allpath : PathMap H
  rootnode : Option H

/-- Go `l[0:1] == "@"` for a non-empty segment `l`. -/
def isInner (l : String) : Bool := l.data.head? == some '@'

/-- Body of the `for _, l := range pattern` loop of `findPath`. The second
component is the map `pathstep` as it is after the loop (it differs from the
argument only when `newpath` created intermediate maps below it). -/
def findPathLoop {H : Type} (newpath : Bool) :
    List String → PathMap H → Bool → List String →
      (Option (PathNode H) × Bool × List String) × PathMap H
  | [], pathstep, innerPath, pathstack =>
    ((some (.dir pathstep), innerPath, pathstack), pathstep)
  | l :: rest, pathstep, innerPath, pathstack =>
    if l = "" then findPathLoop newpath rest pathstep innerPath pathstack
    else
      let innerPath := if isInner l then true else innerPath
      match mapGet pathstep l with
      | none =>
        if newpath then
          let r := findPathLoop newpath rest [] innerPath (pathstack ++ [l])
          (r.1, mapSet pathstep l (.dir r.2))
        else ((some (.dir pathstep), innerPath, pathstack), pathstep)
      | some (.dir m) =>
        let r := findPathLoop newpath rest m innerPath (pathstack ++ [l])
        (r.1, mapSet pathstep l (.dir r.2))
      | some (.hnd h) => ((some (.hnd h), innerPath, pathstack ++ [l]), pathstep)

/-- Method `frmRtePath.getRoot`. -/
def frmRtePath.getRoot {H : Type} (rhnd : frmRtePath H) :
    Option (PathNode H) × Bool × List String :=
  match rhnd.rootnode with
  | some r => (some (.hnd r), false, [])
  | none => (some (.dir rhnd.allpath), false, [])

/-- Method `frmRtePath.findPath`: the node found, the private-segment flag and
the matched prefix, together with the router after the call. -/
def frmRtePath.findPath {H : Type} (rhnd : frmRtePath H) (pattern : List String)
    (newpath : Bool) :
    (Option (PathNode H) × Bool × List String) × frmRtePath H :=
  if pattern.length < 1 then (rhnd.getRoot, rhnd)
  else
    let r := findPathLoop newpath pattern rhnd.allpath false []
    (r.1, { rhnd with allpath := r.2 })

/-- Method `frmRtePath.findHandle`. -/
def frmRtePath.findHandle {H : Type} (rhnd : frmRtePath H) (pattern : List String) :
    Option H × Bool × List String :=
  match (rhnd.findPath pattern false).1 with
  | (some (.hnd expHnd), inner, step) => (some expHnd, inner, step)
  | _ => (none, false, [])

/-- Method `frmRtePath.setRoot`. -/
def frmRtePath.setRoot {H : Type} (rhnd : frmRtePath H) (hnd : H) : Res (frmRtePath H) :=
  match rhnd.rootnode with
  | some _ => .panic "failed add handle to path. sepcify locate already exists"
  | none => .ok { rhnd with rootnode := some hnd }

/-- Go `pmap[key] = val` where `pmap` is the map that `findPath` reached
through the segments `loc`. -/
def storeAt {H : Type} : PathMap H → List String → String → PathNode H → PathMap H
  | m, [], key, val => mapSet m key val
  | m, l :: loc, key, val =>
    match mapGet m l with
    | some (.dir sub) => mapSet m l (.dir (storeAt sub loc key val))
    | _ => m

/-- Constant `restMethodCount`, which `insertHandle` uses as the capacity of
its copy of the pattern. -/
def restMethodCount : Nat := 7

/-- The last statements of `insertHandle` ("combine all route path"), run once
the handler is stored: `make([]string, len(pattern), restMethodCount)` panics
at run time when the pattern has more segments than the capacity, and
otherwise the entry is appended to `nodes`. -/
def frmRtePath.combineRoute {H : Type} (rhnd : frmRtePath H) (pattern : List String)
    (handler : H) : Res Unit × frmRtePath H :=
  if pattern.length > restMethodCount then
    (.panic "runtime error: makeslice: cap out of range", rhnd)
  else (.ok (), { rhnd with nodes := rhnd.nodes ++ [(pattern, handler)] })

/-- Method `frmRtePath.insertHandle`: how the call ends, and the router
afterwards. `handler` is `none` for the Go `nil`. A pattern is `nil` exactly
when it is empty (callers pass `splitePath` results). -/
def frmRtePath.insertHandle {H : Type} (rhnd : frmRtePath H) (pattern : List String)
    (handler : Option H) : Res Unit × frmRtePath H :=
  match handler with
  | none => (.panic "handle can not set nil", rhnd)
  | some handler =>
    match pattern with
    | [] =>
      match rhnd.setRoot handler with
      | .ok rhnd' => (.ok (), rhnd')
      | .panic msg => (.panic msg, rhnd)
    | [p0] =>
      frmRtePath.combineRoute { rhnd with allpath := mapSet rhnd.allpath p0 (.hnd handler) }
        pattern handler
    | _ =>
      let last := pattern.getLast!
      let r := rhnd.findPath pattern.dropLast true
      match r.1 with
      | (none, _, _) =>
        (.panic "failed add handle to path. specify locate not available", r.2)
      | (some (.hnd _), _, _) =>
        (.panic "failed add handle to path. sepcify locate already exists", r.2)
      | (some (.dir pmap), _, loc) =>
        match mapGet pmap last with
        | some _ => (.panic "failed add handle to path. sepcify locate already exists", r.2)
        | none =>
          frmRtePath.combineRoute
            { r.2 with allpath := storeAt r.2.allpath loc last (.hnd handler) } pattern handler

/-- Router made by `CreatePathHandle`. -/
def CreatePathHandle (H : Type) : frmRtePath H :=
  { inst := none, nodes := [], allpath := [], rootnode := none }

/-- Run a list of registrations `Handle(pattern, handler)` in order, stopping
at the first one that panics. -/
def registerAll {H : Type} : frmRtePath H → List (List String × H) → Res (frmRtePath H)
  | rhnd, [] => .ok rhnd
  | rhnd, (p, h) :: rest =>
    match rhnd.insertHandle p (some h) with
    | (.ok _, rhnd') => registerAll rhnd' rest
    | (.panic msg, _) => .panic msg

/-! ## The request context (`svrRspObj`) -/

/-- Response object `svrRspObj`: the fields the routing pipeline reads or
writes. `method` and `urlPath` stand for `req.Method` and `req.URL.Path`. -/
structure svrRspObj where
  method : String
  urlPath : String
  fullpath : List String
  relpath : List String
  redir : Bool
  deriving DecidableEq, Repr

/-- Function `splitePath`: split a path string to a slice. -/
def splitePath (pathstr : String) : List String :=
  if pathstr = "" ∨ pathstr = "/" then []
  else
    let chars := if pathstr.data.head? = some '/' then pathstr.data.tail else pathstr.data
    let sppath := chars.splitOn '/'
    let outSp := sppath.filter (fun sp => sp ≠ [])
    outSp.map String.mk

/-- Function `createReqObj`, from the method and URL path of the raw request. -/
def createReqObj (method urlPath : String) : svrRspObj :=
  let fullpath := splitePath urlPath
  { method := method, urlPath := urlPath, fullpath := fullpath, relpath := fullpath,
    redir := false }

/-- Method `svrRspObj.Method`. -/
def svrRspObj.Method (srq : svrRspObj) : String := srq.method

/-- Method `svrRspObj.GetPath`: a copy of the relative or of the full path. -/
def svrRspObj.GetPath (srq : svrRspObj) (rel : Bool) : List String :=
  if rel then srq.relpath else srq.fullpath

/-- Method `svrRspObj.isRedir`. -/
def svrRspObj.isRedir (srq : svrRspObj) : Bool := srq.redir

/-- The checking loop `for i, v := range path` of `trimPath`, from index `i`:
the error it returns, if any. -/
def trimPathCheck (relpath : List String) : Nat → List String → Option String
  | _, [] => none
  | i, v :: rest =>
    if i + 1 > relpath.length then some "specify path is longer then current path"
    else if relpath.get? i ≠ some v then some "specify path is not found"
    else trimPathCheck relpath (i + 1) rest

/-- Method `svrRspObj.trimPath`: the returned error and the object afterwards. -/
def svrRspObj.trimPath (srq : svrRspObj) (path : List String) : Option String × svrRspObj :=
  match trimPathCheck srq.relpath 0 path with
  | some err => (some err, srq)
  | none => (none, { srq with relpath := srq.relpath.drop path.length })

/-- Method `svrRspObj.redirect`: set path for redirect. -/
def svrRspObj.redirect (srq : svrRspObj) (path : List String) : svrRspObj :=
  { srq with
    fullpath := path, relpath := path, redir := true,
    urlPath := "/" ++ String.intercalate "/" path }

/-! ## The error session (`errHandle`) -/

/-- Table `httpErrorTitles`, keyed by the numeric value of the status
constants of `net/http`. -/
def httpErrorTitles : List (Int × String) :=
  [ (400, "Bad Request"), (401, "Unauthorized"), (402, "Payment Required"),
    (403, "Forbidden"), (404, "Not Found"), (405, "Method Not Allowed"),
    (406, "Not Acceptable"), (407, "Proxy Auth Required"), (408, "Request Timeout"),
    (409, "Conflict"), (410, "Gone"), (411, "Length Required"),
    (412, "Precondition Failed"), (413, "Request Entity Too Large"),
    (414, "Status Request URI Too Long"), (415, "Unsupported Media Type"),
    (416, "Requested Range Not Satisfiable"), (417, "Expectation Failed"),
    (418, "Teapot"), (421, "Misdirected Request"), (422, "Unprocessable Entity"),
    (423, "Locked"), (424, "Failed Dependency"), (426, "Upgrade Required"),
    (428, "Precondition Required"), (429, "Too Many Requests"),
    (431, "Request Header Fields Too Large"), (451, "Unavailable For Legal Reasons"),
    (500, "Internal Server Error"), (501, "Not Implemented"), (502, "Bad Gateway"),
    (503, "Service Unavailable"), (504, "Gateway Timeout"),
    (505, "HTTP Version Not Supported"), (506, "Variant Also Negotiates"),
    (507, "Insufficient Storage"), (508, "Loop Detected"), (510, "Not Extended"),
    (511, "Network Authentication Required") ]

/-- Go `title, ok := httpErrorTitles[code]`. -/
def errorTitle (code : Int) : Option String :=
  (httpErrorTitles.find? (fun e => e.1 = code)).map (fun e => e.2)

/-- Error handle `errHandle`, which works as a session. `msg` is the string
whose bytes the Go field holds. -/
structure errHandle where
  stateCode : Int
  msg : String
  deriving DecidableEq, Repr

/-- Outgoing header set (`http.Header`): each key with its values in order. -/
abbrev Header := List (String × List String)

/-- Method `http.Header.Add` for a key already in canonical form. -/
def Header.Add (header : Header) (key value : String) : Header :=
  mapSet header key ((mapGet header key).getD [] ++ [value])

/-- Method `errHandle.EnterServer`: no redirect, no error. -/
def errHandle.EnterServer (_hnd : errHandle) : String × Option String := ("", none)

/-- Method `errHandle.BeginResponse`: the status and the header set afterwards. -/
def errHandle.BeginResponse (hnd : errHandle) (header : Header) : Int × Header :=
  (hnd.stateCode, header.Add "Content-Type" "text/html;charset=utf-8")

/-- Method `errHandle.WriteResponse`. -/
def errHandle.WriteResponse (hnd : errHandle) : String := hnd.msg

/-- Function `CreateErrSession`; `none` is the Go `nil` session. -/
def CreateErrSession (code : Int) (msg : String) (debug : Option String) : Option errHandle :=
  match errorTitle code with
  | none => none
  | some title =>
    match debug with
    | some d =>
      some ⟨code, "<h1>" ++ toString code ++ " " ++ title ++ "</h1><p>" ++ msg ++ "</p>" ++ d⟩
    | none =>
      some ⟨code, "<h1>" ++ toString code ++ " " ++ title ++ "</h1><p>" ++ msg ++ "</p>"⟩

/-! ## `BeginSession` of the routers -/

/-- What a router's `BeginSession` does: it panics, it returns a session made
by `CreateErrSession` without calling any mounted handler, or it returns
`hnd.BeginSession(req, env)` of a mounted handler, whose outcome is `r`. -/
inductive BeginResult (ρ : Type) where
  | panicked (msg : String)
  | created (ses : Option errHandle)
  | delegated (r : ρ)
  deriving DecidableEq, Repr

/-- Method `frmRteBase.DebugMsg` applied to `req.String`, then called: the
debug text when the instance is in debug mode. `reqString` is the rendering
`svrRspObj.String`. -/
def DebugMsg (conf : InstConfig) (reqString : svrRspObj → String) (req : svrRspObj) :
    Option String :=
  if conf.Debuging then some (reqString req) else none

/-- Method `frmRtePath.BeginSession`. `bs h req` is the outcome of
`h.BeginSession(req, env)`. Reading the configuration of a router whose
`InitHandler` never ran dereferences a nil instance. -/
def frmRtePath.BeginSession {H ρ : Type} (rhnd : frmRtePath H)
    (reqString : svrRspObj → String) (bs : H → svrRspObj → ρ) (req : svrRspObj) :
    BeginResult ρ :=
  match rhnd.findHandle (req.GetPath true) with
  | (hnd, inner, step) =>
    match rhnd.inst with
    | none => .panicked "invalid memory address or nil pointer dereference"
    | some conf =>
      match hnd with
      | none =>
        match rhnd.rootnode with
        | some rootnode => .delegated (bs rootnode req)
        | none => .created (CreateErrSession 404 "You known" (DebugMsg conf reqString req))
      | some hnd =>
        if inner && !req.isRedir then
          .created (CreateErrSession 403 "Unavailable this locate" (DebugMsg conf reqString req))
        else
          .delegated (bs hnd (req.trimPath step).2)

/-! ## The method router (`frmRteREST`) -/

/-- Table `supportedRESTTab`. -/
def supportedRESTTab : List (String × Bool) :=
  [ ("DELETE", true), ("GET", true), ("HEAD", true), ("OPTIONS", true),
    ("PATCH", true), ("POST", true), ("PUT", true) ]

/-- Function `checkRESTMethod`. -/
def checkRESTMethod (method : String) : Bool := (mapGet supportedRESTTab method).isSome

/-- RESTful style route struct `frmRteREST`. -/
structure frmRteREST (H : Type) where
  inst : Option InstConfig
  nodes : List (String × H)
  allmth : List (String × H)

/-- Method `frmRteREST.BeginSession`. -/
def frmRteREST.BeginSession {H ρ : Type} (rhnd : frmRteREST H)
    (reqString : svrRspObj → String) (bs : H → svrRspObj → ρ) (req : svrRspObj) :
    BeginResult ρ :=
  match rhnd.inst with
  | none => .panicked "invalid memory address or nil pointer dereference"
  | some conf =>
    if !checkRESTMethod req.Method then
      .created (CreateErrSession 405 "unsupported method" (DebugMsg conf reqString req))
    else
      match mapGet rhnd.allmth req.Method with
      | none =>
        .created (CreateErrSession 405 "method not implement" (DebugMsg conf reqString req))
      | some hnd => .delegated (bs hnd req)

/-! ## The dispatcher (`QHandle2HandlerFunc`) -/

/-- Session that `createSession` returns: the one the top-level handler made,
or an error session of the dispatcher itself. -/
inductive QSession (σ : Type) where
  | ses (s : σ)
  | err (e : errHandle)
  deriving DecidableEq, Repr

/-- Behaviour of the top-level handler and of the sessions it makes, over the
request object and whatever other state `ω` the handlers keep. Each call
returns normally or panics, and leaves a state behind either way.
`BeginSession` is `hnd.BeginSession(reqobj, getSessionEnv(inst, reqobj))` and
returns the session or the Go `nil`; `EnterServer` returns the redirect target
and the error. The log sink `sndlog` is not part of the state. -/
structure HandlerSem (σ ω : Type) where
  BeginSession : svrRspObj × ω → Res (Option σ) × (svrRspObj × ω)
  EnterServer : σ → svrRspObj × ω → Res (String × Option String) × (svrRspObj × ω)

/-- The closure `reqinfoFunc` of `createSession`, called. -/
def reqinfoFunc (conf : InstConfig) (reqString : svrRspObj → String) (reqobj : svrRspObj) :
    Option String :=
  if conf.Debuging then some (reqString reqobj) else none

/-- The loop `for i := uint(0); i < maxRdir; i++` of `createSession` and the
statements after it, with `n = maxRdir - i` iterations left. -/
def createSessionLoop {σ ω : Type} (sem : HandlerSem σ ω) (conf : InstConfig)
    (reqString : svrRspObj → String) :
    Nat → svrRspObj × ω → Res (Option (QSession σ)) × (svrRspObj × ω)
  | 0, w =>
    (.ok ((CreateErrSession 500 "over limited redirect"
        (reqinfoFunc conf reqString w.1)).map QSession.err), w)
  | n + 1, w =>
    match sem.BeginSession w with
    | (.panic msg, w1) => (.panic msg, w1)
    | (.ok none, w1) =>
      (.ok ((CreateErrSession 500 "an error occured"
          (reqinfoFunc conf reqString w1.1)).map QSession.err), w1)
    | (.ok (some ses), w1) =>
      match sem.EnterServer ses w1 with
      | (.panic msg, w2) => (.panic msg, w2)
      | (.ok (rdir, err), w2) =>
        if rdir ≠ "" then
          createSessionLoop sem conf reqString n (w2.1.redirect (splitePath rdir), w2.2)
        else
          match err with
          | some _ =>
            (.ok ((CreateErrSession 500 "an error occured"
                (reqinfoFunc conf reqString w2.1)).map QSession.err), w2)
          | none => (.ok (some (.ses ses)), w2)

/-- The closure `createSession` of `QHandle2HandlerFunc`: the loop under the
deferred `recover`, which turns a panic into an error session. -/
def createSession {σ ω : Type} (sem : HandlerSem σ ω) (conf : InstConfig)
    (reqString : svrRspObj → String) (w : svrRspObj × ω) :
    Option (QSession σ) × (svrRspObj × ω) :=
  match createSessionLoop sem conf reqString conf.MaxRedirect w with
  | (.panic _, w1) => ((CreateErrSession 500 "Big Errorrrrrrr" none).map QSession.err, w1)
  | (.ok ret, w1) => (ret, w1)

/-- The state after `n` consecutive internal redirects from state `w`: `n`
times in a row `BeginSession` returns a session whose `EnterServer` returns a
non-empty redirect target, which the dispatcher puts in the request. `none`
when fewer than `n` redirects happen in a row. -/
def redirectHops {σ ω : Type} (sem : HandlerSem σ ω) :
    Nat → svrRspObj × ω → Option (svrRspObj × ω)
  | 0, w => some w
  | n + 1, w =>
    match sem.BeginSession w with
    | (.ok (some ses), w1) =>
      match sem.EnterServer ses w1 with
      | (.ok (rdir, _), w2) =>
        if rdir ≠ "" then redirectHops sem n (w2.1.redirect (splitePath rdir), w2.2)
        else none
      | _ => none
    | _ => none

/-- In state `w` the handler returns session `ses`, whose `EnterServer`
neither redirects nor errors and leaves state `w2`. -/
def terminalAt {σ ω : Type} (sem : HandlerSem σ ω) (w : svrRspObj × ω) (ses : σ)
    (w2 : svrRspObj × ω) : Prop :=
  ∃ w1, sem.BeginSession w = (.ok (some ses), w1) ∧
    sem.EnterServer ses w1 = (.ok ("", none), w2)

/-- In state `w` the next resolution attempt fails: `BeginSession` panics or
returns no session, or the session's `EnterServer` panics or returns an error
with no redirect target. -/
def failsAt {σ ω : Type} (sem : HandlerSem σ ω) (w : svrRspObj × ω) : Prop :=
  (∃ msg w1, sem.BeginSession w = (.panic msg, w1)) ∨
  (∃ w1, sem.BeginSession w = (.ok none, w1)) ∨
  (∃ ses w1, sem.BeginSession w = (.ok (some ses), w1) ∧
    ((∃ msg w2, sem.EnterServer ses w1 = (.panic msg, w2)) ∨
     (∃ e w2, sem.EnterServer ses w1 = (.ok ("", some e), w2))))

/-! ## Sequences of operations on a request context -/

/-- A call that changes the paths of a request context. -/
inductive ReqOp where
  | trimPath (path : List String)
  | redirect (path : List String)
  deriving DecidableEq, Repr

/-- The request context after one call; a failing `trimPath` returns its error
and the context is whatever `trimPath` left. -/
def ReqOp.apply (srq : svrRspObj) : ReqOp → svrRspObj
  | .trimPath path => (srq.trimPath path).2
  | .redirect path => srq.redirect path

/-- The request context after a sequence of calls, in order. -/
def runReqOps (srq : svrRspObj) (ops : List ReqOp) : svrRspObj :=
  ops.foldl ReqOp.apply srq

/-! ## Registration in the method router -/

/-- Router made by `CreateRESTHandle`. -/
def CreateRESTHandle (H : Type) : frmRteREST H :=
  { inst := none, nodes := [], allmth := [] }

/-- Method `frmRteREST.checkHandleName`: it panics for an unsupported name and
for a name that already has a handler. -/
def frmRteREST.checkHandleName {H : Type} (rhnd : frmRteREST H) (name : String) : Res Unit :=
  if !checkRESTMethod name then .panic ("unsupported method " ++ name)
  else
    match mapGet rhnd.allmth name with
    | some _ => .panic ("method " ++ name ++ " already registed")
    | none => .ok ()

/-- Method `frmRteREST.Handle`: how the call ends, and the router afterwards. -/
def frmRteREST.Handle {H : Type} (rhnd : frmRteREST H) (pattern : String) (handler : H) :
    Res Unit × frmRteREST H :=
  match rhnd.checkHandleName pattern with
  | .panic msg => (.panic msg, rhnd)
  | .ok _ =>
    (.ok (),
      { rhnd with
        allmth := mapSet rhnd.allmth pattern handler
        nodes := rhnd.nodes ++ [(pattern, handler)] })

/-- The method router after a sequence of `Handle` calls, each taken from the
state the previous one left, whether it panicked or not. -/
def runHandles {H : Type} (rhnd : frmRteREST H) (calls : List (String × H)) : frmRteREST H :=
  calls.foldl (fun r c => (r.Handle c.1 c.2).2) rhnd

/-! ## The initialization traversal (`InitHandler`) -/

/-- Inherited route tree info `RouteTree`; `Exten` is `none` for the Go `nil`. -/
structure RouteTree (E : Type) where
  BindMethod : String
  BindPath : List String
  Exten : Option E
  deriving DecidableEq, Repr

/-- The closure `subtree` of `initHandlerBase`: the tree info handed to a
mounted handler, from the parent's `ptree` (if any) and the entry's own `mnt`. -/
def subtree {E : Type} (ptree : Option (RouteTree E)) (mnt : RouteTree E) : RouteTree E :=
  match ptree with
  | some ptree =>
    let method := if ptree.BindMethod ≠ "" then ptree.BindMethod else mnt.BindMethod
    let spath := ptree.BindPath ++ mnt.BindPath
    let ext :=
      match mnt.Exten with
      | some e => some e
      | none => ptree.Exten
    { BindMethod := method, BindPath := spath, Exten := ext }
  | none => mnt

/-- Method `frmRteBase.initHandlerBase`, for the entries `nodes`: the calls
`v.hnd.InitHandler(inst, self, subtree(&v.RouteTree))` it makes, in order, as
pairs of handler and tree info. -/
def initHandlerBase {H E : Type} (nodes : List (RouteTree E × H)) (ptree : Option (RouteTree E)) :
    List (H × Option (RouteTree E)) :=
  nodes.map (fun v => (v.2, some (subtree ptree v.1)))

/-- The entries `rhnd.nodes` of a path router as `routeNode` values: `insertHandle`
stores `RouteTree{"", fwdpath, nil}`. -/
def frmRtePath.routeNodes {H : Type} (E : Type) (rhnd : frmRtePath H) : List (RouteTree E × H) :=
  rhnd.nodes.map (fun v => ({ BindMethod := "", BindPath := v.1, Exten := none }, v.2))

/-- The entries `rhnd.nodes` of a method router as `routeNode` values: `Handle`
stores `RouteTree{pattern, nil, nil}`. -/
def frmRteREST.routeNodes {H : Type} (E : Type) (rhnd : frmRteREST H) : List (RouteTree E × H) :=
  rhnd.nodes.map (fun v => ({ BindMethod := v.1, BindPath := [], Exten := none }, v.2))

/-- Method `frmRtePath.InitHandler`: the router afterwards (its `inst` is set;
the fields `treeinfo` and `parent`, read only by `Gwtree` and `Parent`, are
not modelled) and the `InitHandler` calls made on mounted handlers, in order:
the fallback handler first, with the parent's tree info as it is, then every
entry. -/
def frmRtePath.InitHandler {H E : Type} (rhnd : frmRtePath H) (inst : InstConfig)
    (ptree : Option (RouteTree E)) : frmRtePath H × List (H × Option (RouteTree E)) :=
  let rootcall :=
    match rhnd.rootnode with
    | some rootnode => [(rootnode, ptree)]
    | none => []
  ({ rhnd with inst := some inst }, rootcall ++ initHandlerBase (rhnd.routeNodes E) ptree)

/-- Method `frmRteREST.InitHandler`: it panics, before anything else, when the
parent has a bound method. -/
def frmRteREST.InitHandler {H E : Type} (rhnd : frmRteREST H) (inst : InstConfig)
    (ptree : Option (RouteTree E)) : Res (List (H × Option (RouteTree E))) × frmRteREST H :=
  let bound :=
    match ptree with
    | some ptree => decide (ptree.BindMethod ≠ "")
    | none => false
  if bound then (.panic "can not initialize REST api, it already binded in parent.", rhnd)
  else (.ok (initHandlerBase (rhnd.routeNodes E) ptree), { rhnd with inst := some inst })

/-- The inheritance rule in the words of the specification: the child's own
method and extension where they are set and the parent's otherwise, the
parent's path segments followed by the child's; the child's own fragment when
there is no parent. -/
def inheritBinding {E : Type} (parent : Option (RouteTree E)) (child : RouteTree E) :
    RouteTree E :=
  match parent with
  | none => child
  | some p =>
    { BindMethod := if child.BindMethod ≠ "" then child.BindMethod else p.BindMethod
      BindPath := p.BindPath ++ child.BindPath
      Exten := if child.Exten.isSome then child.Exten else p.Exten }

/-- Go value of a function that returns normally, mapped. -/
def Res.map {α β : Type} (f : α → β) : Res α → Res β
  | .ok a => .ok (f a)
  | .panic msg => .panic msg

/-! ## The 3xx sessions and the alias session (`delux_handle.go`) -/

/-- Session `ht3xxSession`. -/
structure ht3xxSession where
  code : Int
  deriving DecidableEq, Repr

/-- Redirect session `redirSession`, which embeds `ht3xxSession`. -/
structure redirSession where
  code : Int
  url : String
  deriving DecidableEq, Repr

/-- Inner redirect session `aliasSession`. -/
structure aliasSession where
  route : String
  deriving DecidableEq, Repr

/-- Function `CreateRedirectSession`; `redirtype` is the `RedirCode`. -/
def CreateRedirectSession (url : String) (redirtype : Int) : redirSession :=
  { code := redirtype, url := url }

/-- Function `CreateNochangeSession`: HTTP 304. -/
def CreateNochangeSession : ht3xxSession := { code := 304 }

/-- Function `CreateAliasSession`. -/
def CreateAliasSession (path : String) : aliasSession :=
  { route := if path = "" then "/" else path }

/-- Method `ht3xxSession.EnterServer`. -/
def ht3xxSession.EnterServer (_ses : ht3xxSession) : String × Option String := ("", none)

/-- Method `ht3xxSession.BeginResponse`: the status and the header set afterwards. -/
def ht3xxSession.BeginResponse (ses : ht3xxSession) (header : Header) : Int × Header :=
  (ses.code, header)

/-- Method `ht3xxSession.WriteResponse`: no content (`nil`). -/
def ht3xxSession.WriteResponse (_ses : ht3xxSession) : Option String := none

/-- Method `EnterServer` of `redirSession`, promoted from `ht3xxSession`. -/
def redirSession.EnterServer (_ses : redirSession) : String × Option String := ("", none)

/-- Method `redirSession.BeginResponse`. -/
def redirSession.BeginResponse (ses : redirSession) (header : Header) : Int × Header :=
  (ht3xxSession.mk ses.code).BeginResponse (header.Add "Location" ses.url)

/-- Method `WriteResponse` of `redirSession`, promoted from `ht3xxSession`. -/
def redirSession.WriteResponse (_ses : redirSession) : Option String := none

/-- Method `aliasSession.EnterServer`. -/
def aliasSession.EnterServer (ses : aliasSession) : String × Option String := (ses.route, none)

/-- Method `aliasSession.BeginResponse`. -/
def aliasSession.BeginResponse (_ses : aliasSession) (header : Header) : Int × Header :=
  (403, header)

/-- Method `aliasSession.WriteResponse`. -/
def aliasSession.WriteResponse (_ses : aliasSession) : Option String :=
  some "Nothing content in Alias"

/-- The built-in sessions as values of the interface `QSession`. -/
inductive BuiltinSession where
  | err (e : errHandle)
  | redir (s : redirSession)
  | nochange (s : ht3xxSession)
  | alias (s : aliasSession)
  deriving DecidableEq, Repr

/-- Interface call `ses.BeginResponse(header)`. -/
def BuiltinSession.BeginResponse : BuiltinSession → Header → Int × Header
  | .err e, header => e.BeginResponse header
  | .redir s, header => s.BeginResponse header
  | .nochange s, header => s.BeginResponse header
  | .alias s, header => s.BeginResponse header

/-- Interface call `ses.WriteResponse(rsp)`: the bytes returned, `none` for
`nil`. -/
def BuiltinSession.WriteResponse : BuiltinSession → Option String
  | .err e => some e.WriteResponse
  | .redir s => s.WriteResponse
  | .nochange s => s.WriteResponse
  | .alias s => s.WriteResponse

/-- What the exported handler function of `QHandle2HandlerFunc` puts on the
transport when it drives a session: the status, the header set, and the body
bytes written (none when `WriteResponse` returns `nil`). -/
def driveSession (ses : BuiltinSession) (header : Header) : Int × Header × String :=
  let r := ses.BeginResponse header
  (r.1, r.2, (ses.WriteResponse).getD "")

/-- The non-empty pieces of a string between `/` characters, in order. -/
def nonEmptyPieces (s : String) : List String :=
  ((s.data.splitOn '/').filter (fun sp => sp ≠ [])).map String.mk

/-! ## Path strings of the request context -/

/-- Go `strings.Join(path, "/")`. -/
def joinPath (path : List String) : String := String.intercalate "/" path

/-- Method `svrRspObj.BasePath`: base path about current gateway. The slice
expression `srq.fullpath[0:len(srq.relpath)]` is `take`; it is in range
whenever the relative path is no longer than the full path. -/
def svrRspObj.BasePath (srq : svrRspObj) : String :=
  if srq.relpath.length = 0 then
    if srq.fullpath ≠ [] then "/" ++ joinPath srq.fullpath else "/"
  else if srq.relpath.length = srq.fullpath.length then "/" ++ joinPath srq.fullpath
  else "/" ++ joinPath (srq.fullpath.take srq.relpath.length)

/-- The base path in the words of the documentation: `/` followed by the
segments of the full path that come before the relative path, joined by `/`. -/
def consumedPath (srq : svrRspObj) : String :=
  "/" ++ joinPath (srq.fullpath.take (srq.fullpath.length - srq.relpath.length))

/-! ## What a trie holds (used to state what registration stores) -/

/-- The handler that a trie holds at exactly the given path: the segments but
the last lead through maps, and the last is bound to the handler. -/
def leafAt {H : Type} : PathMap H → List String → Option H
  | _, [] => none
  | m, l :: rest =>
    match mapGet m l with
    | some (.hnd h) => if rest = [] then some h else none
    | some (.dir sub) => leafAt sub rest
    | none => none

/-- No registration of the sequence, run from the given router, registers a
one-segment path whose segment is already bound in the top map: the case in
which the one-segment branch of `insertHandle` replaces what is stored. -/
def freshSingles {H : Type} : frmRtePath H → List (List String × H) → Bool
  | _, [] => true
  | rhnd, (p, h) :: rest =>
    (match p with
      | [p0] => (mapGet rhnd.allpath p0).isNone
      | _ => true) &&
    freshSingles (rhnd.insertHandle p (some h)).2 rest

/-! ## Concrete routers, requests and handlers used as test inputs -/

/-- Configuration with the default `MaxRedirect` of `newFrmConf`, debug off. -/
def confDefault : InstConfig := { MaxRedirect := 5, Debuging := false }

/-- A request rendering for debug output. -/
def reqStringStub (srq : svrRspObj) : String := srq.urlPath

/-- Handler behaviour that records which handler was called with which
request. -/
def bsRecord (h : Nat) (req : svrRspObj) : Nat × svrRspObj := (h, req)

/-- An external (not redirected) request for `urlPath`, as `createReqObj` makes
it. -/
def reqGET (urlPath : String) : svrRspObj := createReqObj "GET" urlPath

/-- Initialised path router holding handler 1 at `/a`, no fallback. -/
def routerA : frmRtePath Nat :=
  { inst := some confDefault, nodes := [(["a"], 1)], allpath := [("a", .hnd 1)],
    rootnode := none }

/-- Initialised path router holding handler 7 at `/@admin`, no fallback. -/
def routerAdmin : frmRtePath Nat :=
  { inst := some confDefault, nodes := [(["@admin"], 7)], allpath := [("@admin", .hnd 7)],
    rootnode := none }

/-- Initialised path router holding handler 3 at `/api/v1` and the fallback
handler 9. -/
def routerApi : frmRtePath Nat :=
  { inst := some confDefault, nodes := [(["api", "v1"], 3)],
    allpath := [("api", .dir [("v1", .hnd 3)])], rootnode := some 9 }

/-- Initialised method router with handler 1 for GET and handler 2 for POST. -/
def restGetPost : frmRteREST Nat :=
  { inst := some confDefault, nodes := [("GET", 1), ("POST", 2)],
    allmth := [("GET", 1), ("POST", 2)] }

/-- Top-level handler whose session for `/` redirects internally to `/hop1`,
whose session for `/hop1` redirects to `/hop2`, and whose session for any other
path neither redirects nor errors. A session is identified by the relative
path it was made for. -/
def twoHopSem : HandlerSem (List String) Unit :=
  { BeginSession := fun w => (.ok (some w.1.relpath), w)
    EnterServer := fun ses w =>
      match ses with
      | [] => (.ok ("/hop1", none), w)
      | ["hop1"] => (.ok ("/hop2", none), w)
      | _ => (.ok ("", none), w) }

/-! ## Lemmas: maps, the trie walk, path trimming, error sessions -/

section Lemmas

variable {H ρ : Type}

theorem findPathLoop_hnd_append (np : Bool) (P R : List String) :
    ∀ (m : PathMap H) (i : Bool) (s : List String) (h : H) (i' : Bool) (s' : List String),
      (findPathLoop np P m i s).1 = (some (.hnd h), i', s') →
      (findPathLoop np (P ++ R) m i s).1 = (some (.hnd h), i', s') := by
  induction P with
  | nil => intro m i s h i' s' hf; simp [findPathLoop] at hf
  | cons l rest ih =>
    intro m i s h i' s' hf
    simp only [List.cons_append, findPathLoop] at hf ⊢
    by_cases hl : l = ""
    · simp only [hl, if_true] at hf ⊢
      exact ih _ _ _ _ _ _ hf
    · simp only [hl, if_false] at hf ⊢
      cases hg : mapGet m l with
      | none =>
        simp only [hg] at hf ⊢
        cases np with
        | false => simp at hf
        | true =>
          simp only [if_true] at hf ⊢
          exact ih _ _ _ _ _ _ hf
      | some node =>
        cases node with
        | hnd h0 => simp only [hg] at hf ⊢; exact hf
        | dir sub =>
          simp only [hg] at hf ⊢
          exact ih _ _ _ _ _ _ hf

theorem findPathLoop_hnd_stack (np : Bool) (P : List String) :
    ∀ (m : PathMap H) (i : Bool) (s : List String) (h : H) (i' : Bool) (s' : List String),
      (findPathLoop np P m i s).1 = (some (.hnd h), i', s') →
      ∃ added, s' = s ++ added ∧ i' = (i || added.any isInner) := by
  induction P with
  | nil => intro m i s h i' s' hf; simp [findPathLoop] at hf
  | cons l rest ih =>
    intro m i s h i' s' hf
    simp only [findPathLoop] at hf
    by_cases hl : l = ""
    · simp only [hl, if_true] at hf
      exact ih _ _ _ _ _ _ hf
    · simp only [hl, if_false] at hf
      have step : ∀ (r : (Option (PathNode H) × Bool × List String) × PathMap H),
          r.1 = (some (.hnd h), i', s') →
          (∃ added, s' = (s ++ [l]) ++ added ∧
            i' = ((if isInner l then true else i) || added.any isInner)) →
          ∃ added, s' = s ++ added ∧ i' = (i || added.any isInner) := by
        intro r _ hex
        obtain ⟨added, hs, hi⟩ := hex
        refine ⟨l :: added, by simp [hs], ?_⟩
        rw [hi]
        simp only [List.any_cons]
        cases isInner l <;> cases i <;> simp
      cases hg : mapGet m l with
      | none =>
        simp only [hg] at hf
        cases np with
        | false => simp at hf
        | true =>
          simp only [if_true] at hf
          exact step _ hf (ih _ _ _ _ _ _ hf)
      | some node =>
        cases node with
        | hnd h0 =>
          simp only [hg, Prod.mk.injEq, Option.some.injEq, PathNode.hnd.injEq] at hf
          obtain ⟨_, hi, hs⟩ := hf
          refine ⟨[l], hs.symm, ?_⟩
          rw [← hi]
          simp only [List.any_cons, List.any_nil]
          cases isInner l <;> cases i <;> simp
        | dir sub =>
          simp only [hg] at hf
          exact step _ hf (ih _ _ _ _ _ _ hf)

/-- What `findHandle` returns when it finds a handler: the flag is true exactly
when a segment of the matched prefix begins with `@`. -/
theorem findHandle_inner (rhnd : frmRtePath H) (pattern : List String) (h : H)
    (inner : Bool) (step : List String)
    (hf : rhnd.findHandle pattern = (some h, inner, step)) :
    inner = step.any isInner := by
  unfold frmRtePath.findHandle frmRtePath.findPath at hf
  by_cases hp : pattern.length < 1
  · simp only [hp, if_true, frmRtePath.getRoot] at hf
    cases hr : rhnd.rootnode with
    | none => simp [hr] at hf
    | some r =>
      simp only [hr, Prod.mk.injEq, Option.some.injEq] at hf
      obtain ⟨_, hi, hs⟩ := hf
      simp [← hi, ← hs]
  · simp only [hp, if_false] at hf
    generalize hres : (findPathLoop false pattern rhnd.allpath false []).1 = res at hf
    obtain ⟨node, i0, s0⟩ := res
    cases node with
    | none => simp at hf
    | some nd =>
      cases nd with
      | dir sub => simp at hf
      | hnd h0 =>
        simp only [Prod.mk.injEq, Option.some.injEq] at hf
        obtain ⟨hh, hi, hs⟩ := hf
        obtain ⟨added, hs', hi'⟩ := findPathLoop_hnd_stack false pattern _ _ _ _ _ _ hres
        subst hi; subst hs
        simp [hs', hi']

/-- A handler found at exactly `P` is found, with the same flag and matched
prefix, for every path that extends a non-empty `P`. -/
theorem findHandle_append (rhnd : frmRtePath H) (P R : List String) (h : H)
    (inner : Bool) (step : List String) (hne : P ≠ [])
    (hf : rhnd.findHandle P = (some h, inner, step)) :
    rhnd.findHandle (P ++ R) = (some h, inner, step) := by
  have hp : ¬ P.length < 1 := by
    cases P with
    | nil => exact absurd rfl hne
    | cons a t => simp
  have hpr : ¬ (P ++ R).length < 1 := by
    simp only [List.length_append]; omega
  unfold frmRtePath.findHandle frmRtePath.findPath at hf ⊢
  simp only [hp, hpr, if_false] at hf ⊢
  generalize hres : (findPathLoop false P rhnd.allpath false []).1 = res at hf
  obtain ⟨node, i0, s0⟩ := res
  cases node with
  | none => simp at hf
  | some nd =>
    cases nd with
    | dir sub => simp at hf
    | hnd h0 =>
      rw [findPathLoop_hnd_append false P R _ _ _ _ _ _ hres]
      exact hf

theorem mapSet_self {β : Type} (m : List (String × β)) (k : String) (v : β)
    (hg : mapGet m k = some v) : mapSet m k v = m := by
  induction m with
  | nil => simp [mapGet] at hg
  | cons e rest ih =>
    obtain ⟨k0, v0⟩ := e
    simp only [mapGet] at hg
    simp only [mapSet]
    by_cases hk : k0 = k
    · simp only [hk, if_true, Option.some.injEq] at hg
      simp [hk, hg]
    · simp only [hk, if_false] at hg
      simp [hk, ih hg]

/-- A lookup (`newpath = false`) leaves the trie as it was. -/
theorem findPathLoop_false_unchanged (P : List String) :
    ∀ (m : PathMap H) (i : Bool) (s : List String), (findPathLoop false P m i s).2 = m := by
  induction P with
  | nil => intro m i s; rfl
  | cons l rest ih =>
    intro m i s
    simp only [findPathLoop]
    by_cases hl : l = ""
    · simp only [hl, if_true]; exact ih _ _ _
    · simp only [hl, if_false]
      cases hg : mapGet m l with
      | none => simp
      | some node =>
        cases node with
        | hnd h0 => rfl
        | dir sub =>
          simp only [ih]
          exact mapSet_self m l _ hg

/-- A walk that starts in a freshly made map finds no handler, and the map it
ends in is empty. -/
theorem findPathLoop_fresh (P : List String) :
    ∀ (i : Bool) (s : List String),
      ∃ i' s', (findPathLoop true P ([] : PathMap H) i s).1 = (some (.dir []), i', s') := by
  induction P with
  | nil => intro i s; exact ⟨i, s, rfl⟩
  | cons l rest ih =>
    intro i s
    simp only [findPathLoop]
    by_cases hl : l = ""
    · simp only [hl, if_true]; exact ih _ _
    · simp only [hl, if_false, mapGet, if_true]
      exact ih _ _

/-- When the creating walk (`newpath = true`) ends at a handler, or at a map in
which `last` is bound, it has created nothing: these are the cases in which
`insertHandle` panics, so a panicking `insertHandle` leaves the trie as it
was. -/
theorem findPathLoop_true_unchanged (last : String) (P : List String) :
    ∀ (m : PathMap H) (i : Bool) (s : List String) (node : PathNode H) (i' : Bool)
      (s' : List String),
      (findPathLoop true P m i s).1 = (some node, i', s') →
      (match node with
        | .hnd _ => True
        | .dir pmap => (mapGet pmap last).isSome = true) →
      (findPathLoop true P m i s).2 = m := by
  induction P with
  | nil => intro m i s node i' s' _ _; rfl
  | cons l rest ih =>
    intro m i s node i' s' hf hnode
    simp only [findPathLoop] at hf ⊢
    by_cases hl : l = ""
    · simp only [hl, if_true] at hf ⊢
      exact ih _ _ _ _ _ _ hf hnode
    · simp only [hl, if_false] at hf ⊢
      cases hg : mapGet m l with
      | none =>
        simp only [hg, if_true] at hf
        obtain ⟨i2, s2, hfresh⟩ := findPathLoop_fresh (H := H) rest
          (if isInner l then true else i) (s ++ [l])
        rw [hfresh] at hf
        simp only [Prod.mk.injEq, Option.some.injEq] at hf
        obtain ⟨hn, _, _⟩ := hf
        subst hn
        simp [mapGet] at hnode
      | some nd =>
        cases nd with
        | hnd h0 => rfl
        | dir sub =>
          simp only [hg] at hf ⊢
          rw [ih _ _ _ _ _ _ hf hnode]
          exact mapSet_self m l _ hg

/-- The walk never returns the Go `nil`: every value in the trie is a map or a
handler. -/
theorem findPathLoop_node (np : Bool) (P : List String) :
    ∀ (m : PathMap H) (i : Bool) (s : List String), ((findPathLoop np P m i s).1).1 ≠ none := by
  induction P with
  | nil => intro m i s; simp [findPathLoop]
  | cons l rest ih =>
    intro m i s
    simp only [findPathLoop]
    by_cases hl : l = ""
    · simp only [hl, if_true]; exact ih _ _ _
    · simp only [hl, if_false]
      cases hg : mapGet m l with
      | none =>
        cases np with
        | true => simp only [if_true]; exact ih _ _ _
        | false => simp
      | some nd =>
        cases nd with
        | hnd h0 => simp
        | dir sub => exact ih _ _ _

theorem combineRoute_ok (rhnd : frmRtePath H) (pattern : List String) (handler : H)
    (hlen : pattern.length ≤ restMethodCount) :
    rhnd.combineRoute pattern handler =
      (.ok (), { rhnd with nodes := rhnd.nodes ++ [(pattern, handler)] }) := by
  have : ¬ pattern.length > restMethodCount := by omega
  simp [frmRtePath.combineRoute, this]

/-- A registration of a path of at most `restMethodCount` segments that panics
has not changed the router: the guards come before any store, and the walk
that `insertHandle` makes with `newpath = true` created no map. -/
theorem insertHandle_panic_unchanged (rhnd : frmRtePath H) (pattern : List String)
    (handler : Option H) (msg : String)
    (hlen : pattern.length ≤ restMethodCount)
    (hp : (rhnd.insertHandle pattern handler).1 = .panic msg) :
    (rhnd.insertHandle pattern handler).2 = rhnd := by
  cases handler with
  | none => rfl
  | some h =>
    match pattern with
    | [] =>
      simp only [frmRtePath.insertHandle, frmRtePath.setRoot] at hp ⊢
      cases hr : rhnd.rootnode with
      | none => simp [hr] at hp
      | some r => simp [hr]
    | [p0] =>
      simp only [frmRtePath.insertHandle, combineRoute_ok _ _ _ hlen] at hp
      exact absurd hp (by simp)
    | p0 :: p1 :: rest =>
      have hl : ¬ ((p0 :: p1 :: rest).dropLast.length < 1) := by
        simp [List.dropLast]
      simp only [frmRtePath.insertHandle, frmRtePath.findPath, hl, if_false] at hp ⊢
      generalize hres : findPathLoop true (p0 :: p1 :: rest).dropLast rhnd.allpath false [] = res
        at hp ⊢
      obtain ⟨⟨node, i', s'⟩, m'⟩ := res
      have hun : ∀ nd, node = some nd →
          (match nd with
            | .hnd _ => True
            | .dir pmap => (mapGet pmap (p0 :: p1 :: rest).getLast!).isSome = true) →
          m' = rhnd.allpath := by
        intro nd hnd hcond
        have h1 : (findPathLoop true (p0 :: p1 :: rest).dropLast rhnd.allpath false []).1 =
            (some nd, i', s') := by rw [hres, hnd]
        have := findPathLoop_true_unchanged (p0 :: p1 :: rest).getLast! _ _ _ _ _ _ _ h1 hcond
        rw [hres] at this
        exact this
      cases node with
      | none =>
        have hne := findPathLoop_node true (p0 :: p1 :: rest).dropLast rhnd.allpath false []
        rw [hres] at hne
        exact absurd rfl hne
      | some nd =>
        cases nd with
        | hnd h0 =>
          have := hun _ rfl trivial
          subst this
          rfl
        | dir pmap =>
          simp only at hp ⊢
          cases hg : mapGet pmap (p0 :: p1 :: rest).getLast! with
          | none =>
            simp only [hg, combineRoute_ok _ _ _ hlen] at hp
            exact absurd hp (by simp)
          | some v =>
            have := hun _ rfl (by simp [hg])
            subst this
            rfl

theorem trimPathCheck_append (pre p R : List String) :
    trimPathCheck (pre ++ p ++ R) pre.length p = none := by
  induction p generalizing pre with
  | nil => simp [trimPathCheck]
  | cons v rest ih =>
    have hlen : ¬ (pre.length + 1 > (pre ++ v :: rest ++ R).length) := by
      simp only [List.length_append, List.length_cons]; omega
    have hget : (pre ++ v :: rest ++ R).get? pre.length = some v := by
      rw [List.append_assoc, List.get?_eq_getElem?, List.getElem?_append_right (le_refl _)]
      simp
    simp only [trimPathCheck, hlen, if_false, hget, ne_eq, not_true_eq_false]
    have := ih (pre ++ [v])
    simpa using this

/-- Trimming a literal prefix removes it and changes nothing else. -/
theorem trimPath_append (req : svrRspObj) (P R : List String) (hrel : req.relpath = P ++ R) :
    req.trimPath P = (none, { req with relpath := R }) := by
  have h := trimPathCheck_append [] P R
  simp only [List.nil_append, List.length_nil] at h
  simp [svrRspObj.trimPath, hrel, h]

theorem CreateErrSession_some (code : Int) (title msg : String) (debug : Option String)
    (ht : errorTitle code = some title) :
    ∃ e, CreateErrSession code msg debug = some e ∧ e.stateCode = code ∧
      ∀ header, (e.BeginResponse header).1 = code := by
  cases debug <;> simp [CreateErrSession, ht, errHandle.BeginResponse]

end Lemmas

/-! ## Properties of the path router's `BeginSession` -/

section PathRouter

variable {H ρ : Type}

/-- Claim C3: when the relative path of a request resolves to a terminal handler
`h` through a matched prefix `step` that holds a segment beginning with `@`,
`BeginSession` of an initialised path router returns the 403 error session
without calling any handler if the request is not marked redirected, and
returns exactly `h.BeginSession` (on the request trimmed by `step`) if it is. -/
theorem beginSession_private_segment (rhnd : frmRtePath H) (conf : InstConfig)
    (reqString : svrRspObj → String) (bs : H → svrRspObj → ρ) (req : svrRspObj)
    (h : H) (inner : Bool) (step : List String)
    (hinit : rhnd.inst = some conf)
    (hfind : rhnd.findHandle (req.GetPath true) = (some h, inner, step))
    (hpriv : ∃ seg ∈ step, isInner seg = true) :
    (req.isRedir = false →
      ∃ e, rhnd.BeginSession reqString bs req = .created (some e) ∧
        CreateErrSession 403 "Unavailable this locate" (DebugMsg conf reqString req) = some e ∧
        e.stateCode = 403 ∧ ∀ header, (e.BeginResponse header).1 = 403) ∧
    (req.isRedir = true →
      rhnd.BeginSession reqString bs req = .delegated (bs h (req.trimPath step).2)) := by
  have hin : inner = true := by
    rw [findHandle_inner rhnd _ h inner step hfind]
    obtain ⟨seg, hmem, hseg⟩ := hpriv
    exact List.any_eq_true.mpr ⟨seg, hmem, hseg⟩
  subst hin
  constructor
  · intro hred
    obtain ⟨e, he, hc, hb⟩ := CreateErrSession_some 403 "Forbidden" "Unavailable this locate"
      (DebugMsg conf reqString req) (by decide)
    refine ⟨e, ?_, he, hc, hb⟩
    simp [frmRtePath.BeginSession, hfind, hinit, hred, he]
  · intro hred
    simp [frmRtePath.BeginSession, hfind, hinit, hred]

/-- Requests below a resolvable path: when `findHandle` resolves the non-empty
path `P` to the handler `h` with `P` itself as matched prefix, no segment of
`P` begins with `@`, and the relative path of
the request is `P` followed by any remainder `R`, `BeginSession` of an
initialised path router returns exactly `h.BeginSession` called on the request
whose relative path is `R` and whose other fields, the full path among them,
are unchanged. -/
theorem beginSession_stops_at_terminal (rhnd : frmRtePath H) (conf : InstConfig)
    (reqString : svrRspObj → String) (bs : H → svrRspObj → ρ) (req : svrRspObj)
    (h : H) (inner : Bool) (P R : List String)
    (hinit : rhnd.inst = some conf)
    (hreg : rhnd.findHandle P = (some h, inner, P))
    (hne : P ≠ [])
    (hpub : ∀ seg ∈ P, isInner seg = false)
    (hrel : req.relpath = P ++ R) :
    rhnd.findHandle (req.GetPath true) = (some h, false, P) ∧
    rhnd.BeginSession reqString bs req = .delegated (bs h { req with relpath := R }) ∧
    ({ req with relpath := R } : svrRspObj).relpath = R ∧
    ({ req with relpath := R } : svrRspObj).fullpath = req.fullpath := by
  have hin : inner = false := by
    rw [findHandle_inner rhnd P h inner P hreg]
    cases hany : P.any isInner with
    | false => rfl
    | true =>
      obtain ⟨seg, hmem, hseg⟩ := List.any_eq_true.mp hany
      rw [hpub seg hmem] at hseg
      exact absurd hseg (by decide)
  subst hin
  have hfind : rhnd.findHandle (req.GetPath true) = (some h, false, P) := by
    simp only [svrRspObj.GetPath, if_true, hrel]
    exact findHandle_append rhnd P R h false P hne hreg
  refine ⟨hfind, ?_, rfl, rfl⟩
  simp [frmRtePath.BeginSession, hfind, hinit, trimPath_append req P R hrel]

/-- Claim C8: when the relative path of a request does not resolve to a
terminal handler of the trie (`findHandle` finds none, or the relative path is
empty), `BeginSession` of an initialised path router returns exactly the
fallback handler's `BeginSession` on the unmodified request if a fallback is
set, and the 404 error session if none is set. -/
theorem beginSession_unmatched (rhnd : frmRtePath H) (conf : InstConfig)
    (reqString : svrRspObj → String) (bs : H → svrRspObj → ρ) (req : svrRspObj)
    (hinit : rhnd.inst = some conf)
    (hmiss : (rhnd.findHandle (req.GetPath true)).1 = none ∨ req.relpath = []) :
    (∀ rootnode, rhnd.rootnode = some rootnode →
      rhnd.BeginSession reqString bs req = .delegated (bs rootnode req)) ∧
    (rhnd.rootnode = none →
      ∃ e, rhnd.BeginSession reqString bs req = .created (some e) ∧
        CreateErrSession 404 "You known" (DebugMsg conf reqString req) = some e ∧
        e.stateCode = 404 ∧ ∀ header, (e.BeginResponse header).1 = 404) := by
  obtain ⟨e, he, hc, hb⟩ := CreateErrSession_some 404 "Not Found" "You known"
    (DebugMsg conf reqString req) (by decide)
  rcases hmiss with hmiss | hempty
  · generalize hres : rhnd.findHandle (req.GetPath true) = res at hmiss
    obtain ⟨hnd, inner, step⟩ := res
    simp only at hmiss
    subst hmiss
    constructor
    · intro rootnode hroot
      simp [frmRtePath.BeginSession, hres, hinit, hroot]
    · intro hroot
      refine ⟨e, ?_, he, hc, hb⟩
      simp [frmRtePath.BeginSession, hres, hinit, hroot, he]
  · have hreq : (req.trimPath []).2 = req := by
      cases req
      simp [svrRspObj.trimPath, trimPathCheck]
    constructor
    · intro rootnode hroot
      have hres : rhnd.findHandle (req.GetPath true) = (some rootnode, false, []) := by
        simp [frmRtePath.findHandle, frmRtePath.findPath, frmRtePath.getRoot,
          svrRspObj.GetPath, hempty, hroot]
      simp [frmRtePath.BeginSession, hres, hinit, hreq]
    · intro hroot
      have hres : rhnd.findHandle (req.GetPath true) = (none, false, []) := by
        simp [frmRtePath.findHandle, frmRtePath.findPath, frmRtePath.getRoot,
          svrRspObj.GetPath, hempty, hroot]
      refine ⟨e, ?_, he, hc, hb⟩
      simp [frmRtePath.BeginSession, hres, hinit, hroot, he]

/-- Claim C9, as amended: in a path router without a fallback handler, when a
terminal handler `h` sits at exactly the non-empty path `P`, resolving a strict
extension `P ++ R` never gives the 404 outcome: the walk stops at `h`, and
`BeginSession` returns the 403 error session when `P` holds a segment beginning
with `@` and the request is not marked redirected, and otherwise exactly
`h.BeginSession` called with relative path `R`. -/
theorem beginSession_strict_extension (rhnd : frmRtePath H) (conf : InstConfig)
    (reqString : svrRspObj → String) (bs : H → svrRspObj → ρ) (req : svrRspObj)
    (h : H) (inner : Bool) (P R : List String)
    (hinit : rhnd.inst = some conf)
    (_hroot : rhnd.rootnode = none)
    (hreg : rhnd.findHandle P = (some h, inner, P))
    (hne : P ≠ [])
    (_hext : R ≠ [])
    (hrel : req.relpath = P ++ R) :
    (inner = (P.any isInner)) ∧
    ((inner = true ∧ req.isRedir = false) →
      ∃ e, rhnd.BeginSession reqString bs req = .created (some e) ∧ e.stateCode = 403) ∧
    (¬ (inner = true ∧ req.isRedir = false) →
      rhnd.BeginSession reqString bs req = .delegated (bs h { req with relpath := R })) ∧
    (∀ e, rhnd.BeginSession reqString bs req = .created (some e) → e.stateCode ≠ 404) := by
  have hfind : rhnd.findHandle (req.GetPath true) = (some h, inner, P) := by
    simp only [svrRspObj.GetPath, if_true, hrel]
    exact findHandle_append rhnd P R h inner P hne hreg
  obtain ⟨e, he, hc, _⟩ := CreateErrSession_some 403 "Forbidden" "Unavailable this locate"
    (DebugMsg conf reqString req) (by decide)
  have h403 : (inner = true ∧ req.isRedir = false) →
      rhnd.BeginSession reqString bs req = .created (some e) := by
    rintro ⟨hi, hr⟩
    simp [frmRtePath.BeginSession, hfind, hinit, hi, hr, he]
  have hdel : ¬ (inner = true ∧ req.isRedir = false) →
      rhnd.BeginSession reqString bs req = .delegated (bs h { req with relpath := R }) := by
    intro hn
    have hc : (inner && !req.isRedir) = false := by
      cases hi : inner <;> cases hr : req.isRedir <;> simp_all
    simp [frmRtePath.BeginSession, hfind, hinit, hc, trimPath_append req P R hrel]
  refine ⟨findHandle_inner rhnd P h inner P hreg, fun hc' => ⟨e, h403 hc', hc⟩, hdel, ?_⟩
  intro e' he'
  by_cases hcase : inner = true ∧ req.isRedir = false
  · rw [h403 hcase] at he'
    simp only [BeginResult.created.injEq, Option.some.injEq] at he'
    rw [← he', hc]
    decide
  · rw [hdel hcase] at he'
    exact absurd he' (by simp)

end PathRouter

/-! ## Properties of the method router's `BeginSession` -/

section MethodRouter

variable {H ρ : Type}

/-- Claim C10: `BeginSession` of an initialised method router returns exactly
the `BeginSession` result of the handler registered for the request method when
that method is one of the seven recognised names and has a handler, and an
error session with status 405 in every other case (method unrecognised, or
recognised with no handler). -/
theorem restBeginSession_dispatch (rhnd : frmRteREST H) (conf : InstConfig)
    (reqString : svrRspObj → String) (bs : H → svrRspObj → ρ) (req : svrRspObj)
    (hinit : rhnd.inst = some conf) :
    (checkRESTMethod req.Method = true ↔
      req.Method ∈ ["DELETE", "GET", "HEAD", "OPTIONS", "PATCH", "POST", "PUT"]) ∧
    (∀ hnd, checkRESTMethod req.Method = true →
      mapGet rhnd.allmth req.Method = some hnd →
      rhnd.BeginSession reqString bs req = .delegated (bs hnd req)) ∧
    ((checkRESTMethod req.Method = false ∨ mapGet rhnd.allmth req.Method = none) →
      ∃ e, rhnd.BeginSession reqString bs req = .created (some e) ∧
        e.stateCode = 405 ∧ ∀ header, (e.BeginResponse header).1 = 405) := by
  refine ⟨?_, ?_, ?_⟩
  · generalize req.Method = m
    simp only [checkRESTMethod, supportedRESTTab, mapGet, List.mem_cons, List.mem_singleton,
      List.not_mem_nil, or_false]
    constructor
    · intro hm
      by_contra hcon
      simp only [not_or] at hcon
      obtain ⟨h1, h2, h3, h4, h5, h6, h7⟩ := hcon
      simp [Ne.symm h1, Ne.symm h2, Ne.symm h3, Ne.symm h4, Ne.symm h5, Ne.symm h6,
        Ne.symm h7] at hm
    · intro hm
      rcases hm with h | h | h | h | h | h | h <;> subst h <;> decide
  · intro hnd hrec hreg
    simp [frmRteREST.BeginSession, hinit, hrec, hreg]
  · intro hcase
    by_cases hrec : checkRESTMethod req.Method = true
    · have hreg : mapGet rhnd.allmth req.Method = none := by
        rcases hcase with hc | hc
        · rw [hrec] at hc; exact absurd hc (by decide)
        · exact hc
      obtain ⟨e, he, hc, hb⟩ := CreateErrSession_some 405 "Method Not Allowed"
        "method not implement" (DebugMsg conf reqString req) (by decide)
      refine ⟨e, ?_, hc, hb⟩
      simp [frmRteREST.BeginSession, hinit, hrec, hreg, he]
    · have hrec' : checkRESTMethod req.Method = false := by
        cases hq : checkRESTMethod req.Method with
        | false => rfl
        | true => exact absurd hq hrec
      obtain ⟨e, he, hc, hb⟩ := CreateErrSession_some 405 "Method Not Allowed"
        "unsupported method" (DebugMsg conf reqString req) (by decide)
      refine ⟨e, ?_, hc, hb⟩
      simp [frmRteREST.BeginSession, hinit, hrec', he]

end MethodRouter

/-! ## Properties of the request context -/

section RequestContext

theorem trimPathCheck_none (relpath : List String) (path : List String) :
    ∀ i, trimPathCheck relpath i path = none → path <+: relpath.drop i := by
  induction path with
  | nil => intro i _; exact List.nil_prefix
  | cons v rest ih =>
    intro i hchk
    simp only [trimPathCheck, List.get?_eq_getElem?] at hchk
    by_cases hlen : i + 1 > relpath.length
    · simp [hlen] at hchk
    · simp only [hlen, if_false] at hchk
      by_cases hget : relpath[i]? = some v
      · simp only [hget, ne_eq, not_true_eq_false, if_false] at hchk
        have hi : i < relpath.length := by omega
        have hv : relpath[i] = v := by
          rw [List.getElem?_eq_getElem hi] at hget
          exact Option.some.inj hget
        rw [List.drop_eq_getElem_cons hi, hv]
        exact (List.prefix_cons_inj v).mpr (ih (i + 1) hchk)
      · simp [hget] at hchk

/-- What `trimPath` does to the paths: the full path and every field but the
relative path stay, the new relative path is a suffix of the old one, and when
no error is returned the old relative path is the argument followed by the new
relative path. -/
theorem trimPath_paths (srq : svrRspObj) (path : List String) :
    (srq.trimPath path).2.fullpath = srq.fullpath ∧
    (srq.trimPath path).2.relpath <:+ srq.relpath ∧
    ((srq.trimPath path).1 = none → srq.relpath = path ++ (srq.trimPath path).2.relpath) ∧
    ((srq.trimPath path).1 ≠ none → (srq.trimPath path).2 = srq) := by
  unfold svrRspObj.trimPath
  cases hchk : trimPathCheck srq.relpath 0 path with
  | some err => simp
  | none =>
    have hpre := trimPathCheck_none srq.relpath path 0 hchk
    simp only [List.drop_zero] at hpre
    refine ⟨rfl, List.drop_suffix _ _, fun _ => ?_, fun hne => absurd rfl hne⟩
    obtain ⟨t, ht⟩ := hpre
    simp [← ht]

theorem runReqOps_suffix (ops : List ReqOp) :
    ∀ srq : svrRspObj, srq.relpath <:+ srq.fullpath →
      (runReqOps srq ops).relpath <:+ (runReqOps srq ops).fullpath := by
  induction ops with
  | nil => intro srq h; exact h
  | cons op rest ih =>
    intro srq h
    simp only [runReqOps, List.foldl_cons]
    apply ih
    cases op with
    | trimPath path =>
      obtain ⟨hfull, hsuf, _, _⟩ := trimPath_paths srq path
      simp only [ReqOp.apply, hfull]
      exact hsuf.trans h
    | redirect path => exact List.suffix_refl _

/-- Claim C6: in every state a request context reaches from `createReqObj` by
any sequence of `trimPath` calls (failing or not) and `redirect` calls, the
relative path is a contiguous suffix of the full path; and a `trimPath` call
never changes the full path, and leaves as relative path a suffix of the old
one (on success, the old one with exactly the argument removed in front; on
error, the context is unchanged). -/
theorem relpath_suffix_of_fullpath (method urlPath : String) (ops : List ReqOp) :
    (runReqOps (createReqObj method urlPath) ops).relpath <:+
      (runReqOps (createReqObj method urlPath) ops).fullpath ∧
    (∀ (srq : svrRspObj) (path : List String),
      (srq.trimPath path).2.fullpath = srq.fullpath ∧
      (srq.trimPath path).2.relpath <:+ srq.relpath ∧
      ((srq.trimPath path).1 = none →
        srq.relpath = path ++ (srq.trimPath path).2.relpath) ∧
      ((srq.trimPath path).1 ≠ none → (srq.trimPath path).2 = srq)) := by
  exact ⟨runReqOps_suffix ops _ (List.suffix_refl _), fun srq path => trimPath_paths srq path⟩

end RequestContext

/-! ## Properties of the dispatcher loop -/

section Dispatcher

variable {σ ω : Type}

theorem createSessionLoop_hops (sem : HandlerSem σ ω) (conf : InstConfig)
    (reqString : svrRspObj → String) (n : Nat) :
    ∀ (k : Nat) (w wk : svrRspObj × ω), redirectHops sem k w = some wk →
      createSessionLoop sem conf reqString (k + n) w =
        createSessionLoop sem conf reqString n wk := by
  intro k
  induction k with
  | zero =>
    intro w wk h
    simp only [redirectHops, Option.some.injEq] at h
    simp [h]
  | succ k ih =>
    intro w wk h
    rw [show k + 1 + n = (k + n) + 1 by omega]
    simp only [redirectHops] at h
    simp only [createSessionLoop]
    rcases hb : sem.BeginSession w with ⟨rb, w1⟩
    rw [hb] at h
    cases rb with
    | panic msg => simp at h
    | ok os =>
      cases os with
      | none => simp at h
      | some ses =>
        simp only at h ⊢
        rcases he : sem.EnterServer ses w1 with ⟨re, w2⟩
        rw [he] at h
        cases re with
        | panic msg => simp at h
        | ok pr =>
          obtain ⟨rdir, err⟩ := pr
          simp only at h ⊢
          by_cases hr : rdir ≠ ""
          · rw [if_pos hr] at h ⊢
            exact ih _ _ h
          · rw [if_neg hr] at h
            exact absurd h (by simp)

theorem createSessionLoop_result (sem : HandlerSem σ ω) (conf : InstConfig)
    (reqString : svrRspObj → String) :
    ∀ (n : Nat) (w : svrRspObj × ω),
      (∃ msg w1, createSessionLoop sem conf reqString n w = (.panic msg, w1)) ∨
      (∃ e w1, createSessionLoop sem conf reqString n w = (.ok (some (.err e)), w1) ∧
        e.stateCode = 500) ∨
      (∃ s w1, createSessionLoop sem conf reqString n w = (.ok (some (.ses s)), w1)) := by
  intro n
  induction n with
  | zero =>
    intro w
    obtain ⟨e, he, hc, _⟩ := CreateErrSession_some 500 "Internal Server Error"
      "over limited redirect" (reqinfoFunc conf reqString w.1) (by decide)
    exact Or.inr (Or.inl ⟨e, w, by simp [createSessionLoop, he], hc⟩)
  | succ n ih =>
    intro w
    simp only [createSessionLoop]
    rcases hb : sem.BeginSession w with ⟨rb, w1⟩
    cases rb with
    | panic msg => exact Or.inl ⟨msg, w1, rfl⟩
    | ok os =>
      cases os with
      | none =>
        obtain ⟨e, he, hc, _⟩ := CreateErrSession_some 500 "Internal Server Error"
          "an error occured" (reqinfoFunc conf reqString w1.1) (by decide)
        exact Or.inr (Or.inl ⟨e, w1, by simp [he], hc⟩)
      | some ses =>
        simp only
        rcases he : sem.EnterServer ses w1 with ⟨re, w2⟩
        cases re with
        | panic msg => exact Or.inl ⟨msg, w2, rfl⟩
        | ok pr =>
          obtain ⟨rdir, err⟩ := pr
          simp only
          by_cases hr : rdir ≠ ""
          · rw [if_pos hr]
            exact ih _
          · rw [if_neg hr]
            cases err with
            | none => exact Or.inr (Or.inr ⟨ses, w2, by simp⟩)
            | some er =>
              obtain ⟨e, he', hc, _⟩ := CreateErrSession_some 500 "Internal Server Error"
                "an error occured" (reqinfoFunc conf reqString w2.1) (by decide)
              exact Or.inr (Or.inl ⟨e, w2, by simp [he'], hc⟩)

theorem redirectHops_split (sem : HandlerSem σ ω) (b : Nat) :
    ∀ (a : Nat) (w wk : svrRspObj × ω), redirectHops sem (a + b) w = some wk →
      ∃ wa, redirectHops sem a w = some wa := by
  intro a
  induction a with
  | zero => intro w wk _; exact ⟨w, rfl⟩
  | succ a ih =>
    intro w wk h
    rw [show a + 1 + b = (a + b) + 1 by omega] at h
    simp only [redirectHops] at h ⊢
    rcases hb : sem.BeginSession w with ⟨rb, w1⟩
    rw [hb] at h
    cases rb with
    | panic msg => simp at h
    | ok os =>
      cases os with
      | none => simp at h
      | some ses =>
        simp only at h ⊢
        rcases he : sem.EnterServer ses w1 with ⟨re, w2⟩
        rw [he] at h
        cases re with
        | panic msg => simp at h
        | ok pr =>
          obtain ⟨rdir, err⟩ := pr
          simp only at h ⊢
          by_cases hr : rdir ≠ ""
          · rw [if_pos hr] at h ⊢
            exact ih _ _ h
          · rw [if_neg hr] at h
            exact absurd h (by simp)

theorem createSessionLoop_fails (sem : HandlerSem σ ω) (conf : InstConfig)
    (reqString : svrRspObj → String) (n : Nat) (w : svrRspObj × ω) (hfail : failsAt sem w) :
    (∃ msg w1, createSessionLoop sem conf reqString (n + 1) w = (.panic msg, w1)) ∨
    (∃ e w1, createSessionLoop sem conf reqString (n + 1) w = (.ok (some (.err e)), w1) ∧
      e.stateCode = 500) := by
  simp only [createSessionLoop]
  rcases hfail with ⟨msg, w1, hb⟩ | ⟨w1, hb⟩ | ⟨ses, w1, hb, hen⟩
  · rw [hb]; exact Or.inl ⟨msg, w1, rfl⟩
  · rw [hb]
    obtain ⟨e, he, hc, _⟩ := CreateErrSession_some 500 "Internal Server Error"
      "an error occured" (reqinfoFunc conf reqString w1.1) (by decide)
    exact Or.inr ⟨e, w1, by simp [he], hc⟩
  · rw [hb]
    rcases hen with ⟨msg, w2, he⟩ | ⟨er, w2, he⟩
    · simp only [he]; exact Or.inl ⟨msg, w2, rfl⟩
    · simp only [he]
      obtain ⟨e, he', hc, _⟩ := CreateErrSession_some 500 "Internal Server Error"
        "an error occured" (reqinfoFunc conf reqString w2.1) (by decide)
      exact Or.inr ⟨e, w2, by simp [he'], hc⟩

/-- Claim C4 (what the code does): after a chain of exactly `N` consecutive
internal redirects followed by a session whose `EnterServer` neither redirects
nor errors, `createSession` returns that terminal session only when
`N < MaxRedirect`; when `MaxRedirect ≤ N`, so also for `N = MaxRedirect`, it
returns the 500 "over limited redirect" error session, made after
`MaxRedirect` redirects have been put in the request. -/
theorem createSession_redirect_chain (sem : HandlerSem σ ω) (conf : InstConfig)
    (reqString : svrRspObj → String) (N : Nat) (w wN w2 : svrRspObj × ω) (ses : σ)
    (hchain : redirectHops sem N w = some wN)
    (hterm : terminalAt sem wN ses w2) :
    (N < conf.MaxRedirect → createSession sem conf reqString w = (some (.ses ses), w2)) ∧
    (conf.MaxRedirect ≤ N →
      ∃ wM e, redirectHops sem conf.MaxRedirect w = some wM ∧
        createSession sem conf reqString w = (some (.err e), wM) ∧
        CreateErrSession 500 "over limited redirect" (reqinfoFunc conf reqString wM.1) = some e ∧
        e.stateCode = 500 ∧ ∀ header, (e.BeginResponse header).1 = 500) := by
  constructor
  · intro hlt
    obtain ⟨n, hn⟩ : ∃ n, conf.MaxRedirect = N + (n + 1) := ⟨conf.MaxRedirect - N - 1, by omega⟩
    obtain ⟨w1, hb, he⟩ := hterm
    unfold createSession
    rw [hn, createSessionLoop_hops sem conf reqString (n + 1) N w wN hchain]
    simp [createSessionLoop, hb, he]
  · intro hle
    obtain ⟨d, hd⟩ : ∃ d, N = conf.MaxRedirect + d := ⟨N - conf.MaxRedirect, by omega⟩
    rw [hd] at hchain
    obtain ⟨wM, hM⟩ := redirectHops_split sem d conf.MaxRedirect w wN hchain
    obtain ⟨e, he, hc, hb⟩ := CreateErrSession_some 500 "Internal Server Error"
      "over limited redirect" (reqinfoFunc conf reqString wM.1) (by decide)
    refine ⟨wM, e, hM, ?_, he, hc, hb⟩
    have hloop := createSessionLoop_hops sem conf reqString 0 conf.MaxRedirect w wM hM
    rw [Nat.add_zero] at hloop
    unfold createSession
    rw [hloop]
    simp [createSessionLoop, he]

/-- Claim C5: `createSession` always returns a session, never the Go `nil` and
never a panic, and an error session it returns has status 500; and when, after
any number of internal redirects, the next resolution attempt fails
(`BeginSession` panics or returns no session, or `EnterServer` panics or returns
an error with no redirect target), the session returned is an error session
whose `BeginResponse` status is 500. -/
theorem createSession_contains_failure (sem : HandlerSem σ ω) (conf : InstConfig)
    (reqString : svrRspObj → String) (w : svrRspObj × ω) :
    (∃ ret, (createSession sem conf reqString w).1 = some ret ∧
      ∀ e, ret = .err e → e.stateCode = 500 ∧ ∀ header, (e.BeginResponse header).1 = 500) ∧
    (∀ (k : Nat) (wk : svrRspObj × ω), redirectHops sem k w = some wk → failsAt sem wk →
      ∃ e, (createSession sem conf reqString w).1 = some (.err e) ∧ e.stateCode = 500 ∧
        ∀ header, (e.BeginResponse header).1 = 500) := by
  obtain ⟨eb, heb, hcb, _⟩ := CreateErrSession_some 500 "Internal Server Error"
    "Big Errorrrrrrr" none (by decide)
  constructor
  · rcases createSessionLoop_result sem conf reqString conf.MaxRedirect w with
      ⟨msg, w1, hl⟩ | ⟨e, w1, hl, hc⟩ | ⟨s, w1, hl⟩
    · refine ⟨.err eb, by simp [createSession, hl, heb], ?_⟩
      intro e he
      cases he
      exact ⟨hcb, fun _ => hcb⟩
    · refine ⟨.err e, by simp [createSession, hl], ?_⟩
      intro e' he'
      cases he'
      exact ⟨hc, fun _ => hc⟩
    · refine ⟨.ses s, by simp [createSession, hl], ?_⟩
      intro e he
      cases he
  · intro k wk hk hfail
    by_cases hlt : k < conf.MaxRedirect
    · obtain ⟨n, hn⟩ : ∃ n, conf.MaxRedirect = k + (n + 1) :=
        ⟨conf.MaxRedirect - k - 1, by omega⟩
      have hloop := createSessionLoop_hops sem conf reqString (n + 1) k w wk hk
      rw [← hn] at hloop
      rcases createSessionLoop_fails sem conf reqString n wk hfail with
        ⟨msg, w1, hl⟩ | ⟨e, w1, hl, hc⟩
      · exact ⟨eb, by simp [createSession, hloop, hl, heb], hcb, fun _ => hcb⟩
      · exact ⟨e, by simp [createSession, hloop, hl], hc, fun _ => hc⟩
    · obtain ⟨d, hd⟩ : ∃ d, k = conf.MaxRedirect + d := ⟨k - conf.MaxRedirect, by omega⟩
      rw [hd] at hk
      obtain ⟨wM, hM⟩ := redirectHops_split sem d conf.MaxRedirect w wk hk
      obtain ⟨e, he, hc, _⟩ := CreateErrSession_some 500 "Internal Server Error"
        "over limited redirect" (reqinfoFunc conf reqString wM.1) (by decide)
      have hloop := createSessionLoop_hops sem conf reqString 0 conf.MaxRedirect w wM hM
      rw [Nat.add_zero] at hloop
      exact ⟨e, by simp [createSession, hloop, createSessionLoop, he], hc, fun _ => hc⟩

end Dispatcher

/-! ## Evaluations at concrete inputs -/

section Evaluations

/-- Claim C1 (code defect): after the two successful registrations
`Handle("/a/b", 1)` and `Handle("/a", 2)`, resolving the registered path `/a/b`
returns handler 2 with matched prefix `/a`, not handler 1 with matched prefix
`/a/b`: the single-segment branch of `insertHandle` stores without looking at
what the segment holds. -/
theorem registered_path_lost_after_single_segment :
    (match registerAll (CreatePathHandle Nat) [(splitePath "/a/b", 1), (splitePath "/a", 2)] with
      | .ok rhnd => some (rhnd.findHandle (splitePath "/a/b"))
      | .panic _ => none) = some (some 2, false, ["a"]) := by
  decide

/-- Claim C2 (code defect): on a router that holds handler 1 at `/a`,
`insertHandle(["a"], 2)` does not panic, and afterwards handler 2 is the one
found at `/a`: the occupied single-segment path is silently overwritten. -/
theorem insertHandle_overwrites_single_segment :
    (match (CreatePathHandle Nat).insertHandle ["a"] (some 1) with
      | (.ok _, r1) =>
        (match r1.insertHandle ["a"] (some 2) with
          | (.ok _, r2) => some (r1.findHandle ["a"], r2.findHandle ["a"])
          | (.panic _, _) => none)
      | (.panic _, _) => none) = some ((some 1, false, ["a"]), (some 2, false, ["a"])) := by
  decide

/-- Claim C7 (code defect): after the two successful registrations
`Handle("/a/b", 1)` and `Handle("/a", 2)` and the initialization of the router,
handler 1 is still a registered entry at `/a/b`, yet `BeginSession` for the
request `/a/b/x`, whose relative path is `/a/b` followed by `x`, invokes
handler 2 with relative path `b/x`, not handler 1 with relative path `x`: the
single-segment branch of `insertHandle` has replaced the subtree of `a`. -/
theorem registered_handler_bypassed :
    (match registerAll (CreatePathHandle Nat) [(splitePath "/a/b", 1), (splitePath "/a", 2)] with
      | .ok rhnd =>
        some (rhnd.nodes, (reqGET "/a/b/x").relpath,
          (rhnd.InitHandler confDefault (none : Option (RouteTree Unit))).1.BeginSession
            reqStringStub bsRecord (reqGET "/a/b/x"))
      | .panic _ => none) =
      some ([(["a", "b"], 1), (["a"], 2)], ["a", "b"] ++ ["x"],
        .delegated (2, { reqGET "/a/b/x" with relpath := ["b", "x"] })) := by
  rfl

theorem beginSession_private_segment_witness :
    routerAdmin.findHandle ((reqGET "/@admin/x").GetPath true) = (some 7, true, ["@admin"]) ∧
    routerAdmin.BeginSession reqStringStub bsRecord (reqGET "/@admin/x") =
      .created (some ⟨403, "<h1>403 Forbidden</h1><p>Unavailable this locate</p>"⟩) ∧
    routerAdmin.BeginSession reqStringStub bsRecord ((reqGET "/").redirect ["@admin", "x"]) =
      .delegated (7, { ((reqGET "/").redirect ["@admin", "x"]) with relpath := ["x"] }) := by
  have h1 := beginSession_private_segment routerAdmin confDefault reqStringStub bsRecord
    (reqGET "/@admin/x") 7 true ["@admin"] rfl (by decide) ⟨"@admin", by decide, by decide⟩
  have h2 := beginSession_private_segment routerAdmin confDefault reqStringStub bsRecord
    ((reqGET "/").redirect ["@admin", "x"]) 7 true ["@admin"] rfl (by decide)
    ⟨"@admin", by decide, by decide⟩
  refine ⟨by decide, ?_, ?_⟩
  · obtain ⟨e, hb, hc, _⟩ := h1.1 (by decide)
    rw [hb, ← hc]
    decide
  · rw [h2.2 (by decide)]
    decide

theorem beginSession_stops_at_terminal_witness :
    routerApi.findHandle ["api", "v1"] = (some 3, false, ["api", "v1"]) ∧
    (reqGET "/api/v1/users/42").relpath = ["api", "v1"] ++ ["users", "42"] ∧
    routerApi.BeginSession reqStringStub bsRecord (reqGET "/api/v1/users/42") =
      .delegated (3, { reqGET "/api/v1/users/42" with relpath := ["users", "42"] }) :=
  ⟨by decide, by decide,
    (beginSession_stops_at_terminal routerApi confDefault reqStringStub bsRecord
      (reqGET "/api/v1/users/42") 3 false ["api", "v1"] ["users", "42"] rfl (by decide)
      (by decide) (by decide) (by decide)).2.1⟩

theorem beginSession_unmatched_witness :
    (routerApi.findHandle ((reqGET "/api/v2").GetPath true)).1 = none ∧
    routerApi.BeginSession reqStringStub bsRecord (reqGET "/api/v2") =
      .delegated (9, reqGET "/api/v2") ∧
    (routerA.findHandle ((reqGET "/b").GetPath true)).1 = none ∧
    (∃ e, routerA.BeginSession reqStringStub bsRecord (reqGET "/b") = .created (some e) ∧
      CreateErrSession 404 "You known" (DebugMsg confDefault reqStringStub (reqGET "/b")) =
        some e ∧
      e.stateCode = 404 ∧ ∀ header, (e.BeginResponse header).1 = 404) :=
  ⟨by decide,
    (beginSession_unmatched routerApi confDefault reqStringStub bsRecord (reqGET "/api/v2")
      rfl (Or.inl (by decide))).1 9 rfl,
    by decide,
    (beginSession_unmatched routerA confDefault reqStringStub bsRecord (reqGET "/b")
      rfl (Or.inl (by decide))).2 rfl⟩

/-- Claim C9 (counterexample): in the router without fallback that holds handler
1 at `/a`, the request for the strict extension `/a/b` is not answered 404:
`BeginSession` returns `BeginSession` of handler 1, called with relative path
`b`. -/
theorem strict_extension_reaches_handler :
    routerA.rootnode = none ∧
    routerA.findHandle ["a"] = (some 1, false, ["a"]) ∧
    routerA.BeginSession reqStringStub bsRecord (reqGET "/a/b") =
      .delegated (1, { reqGET "/a/b" with relpath := ["b"] }) ∧
    ¬ (∃ e, routerA.BeginSession reqStringStub bsRecord (reqGET "/a/b") = .created (some e) ∧
        e.stateCode = 404) := by
  have h : routerA.BeginSession reqStringStub bsRecord (reqGET "/a/b") =
      .delegated (1, { reqGET "/a/b" with relpath := ["b"] }) := by decide
  refine ⟨rfl, by decide, h, ?_⟩
  rintro ⟨e, he, _⟩
  rw [h] at he
  exact absurd he (by simp)

theorem beginSession_strict_extension_witness :
    routerAdmin.findHandle ["@admin"] = (some 7, true, ["@admin"]) ∧
    (reqGET "/@admin/x").relpath = ["@admin"] ++ ["x"] ∧
    (∃ e, routerAdmin.BeginSession reqStringStub bsRecord (reqGET "/@admin/x") =
      .created (some e) ∧ e.stateCode = 403) ∧
    routerA.BeginSession reqStringStub bsRecord (reqGET "/a/b/c") =
      .delegated (bsRecord 1 { reqGET "/a/b/c" with relpath := ["b", "c"] }) :=
  ⟨by decide, by decide,
    (beginSession_strict_extension routerAdmin confDefault reqStringStub bsRecord
      (reqGET "/@admin/x") 7 true ["@admin"] ["x"] rfl rfl (by decide) (by decide) (by decide)
      (by decide)).2.1 ⟨rfl, by decide⟩,
    (beginSession_strict_extension routerA confDefault reqStringStub bsRecord
      (reqGET "/a/b/c") 1 false ["a"] ["b", "c"] rfl rfl (by decide) (by decide) (by decide)
      (by decide)).2.2.1 (by decide)⟩

theorem restBeginSession_dispatch_witness :
    restGetPost.BeginSession reqStringStub bsRecord (createReqObj "POST" "/x") =
      .delegated (2, createReqObj "POST" "/x") ∧
    (∃ e, restGetPost.BeginSession reqStringStub bsRecord (createReqObj "DELETE" "/x") =
      .created (some e) ∧ e.stateCode = 405 ∧ ∀ header, (e.BeginResponse header).1 = 405) ∧
    (∃ e, restGetPost.BeginSession reqStringStub bsRecord (createReqObj "BREW" "/x") =
      .created (some e) ∧ e.stateCode = 405 ∧ ∀ header, (e.BeginResponse header).1 = 405) :=
  ⟨(restBeginSession_dispatch restGetPost confDefault reqStringStub bsRecord
      (createReqObj "POST" "/x") rfl).2.1 2 (by decide) (by decide),
    (restBeginSession_dispatch restGetPost confDefault reqStringStub bsRecord
      (createReqObj "DELETE" "/x") rfl).2.2 (Or.inr (by decide)),
    (restBeginSession_dispatch restGetPost confDefault reqStringStub bsRecord
      (createReqObj "BREW" "/x") rfl).2.2 (Or.inl (by decide))⟩

theorem createSession_redirect_chain_witness :
    redirectHops twoHopSem 2 (reqGET "/", ()) = some ((reqGET "/").redirect ["hop2"], ()) ∧
    terminalAt twoHopSem ((reqGET "/").redirect ["hop2"], ()) ["hop2"]
      ((reqGET "/").redirect ["hop2"], ()) ∧
    createSession twoHopSem { MaxRedirect := 2, Debuging := false } reqStringStub
        (reqGET "/", ()) =
      (some (.err ⟨500, "<h1>500 Internal Server Error</h1><p>over limited redirect</p>"⟩),
        ((reqGET "/").redirect ["hop2"], ())) ∧
    createSession twoHopSem { MaxRedirect := 3, Debuging := false } reqStringStub
        (reqGET "/", ()) =
      (some (.ses ["hop2"]), ((reqGET "/").redirect ["hop2"], ())) := by
  have hchain : redirectHops twoHopSem 2 (reqGET "/", ()) =
      some ((reqGET "/").redirect ["hop2"], ()) := by decide
  have hterm : terminalAt twoHopSem ((reqGET "/").redirect ["hop2"], ()) ["hop2"]
      ((reqGET "/").redirect ["hop2"], ()) := ⟨_, rfl, rfl⟩
  refine ⟨hchain, hterm, ?_, ?_⟩
  · obtain ⟨wM, e, hM, hcs, he, _⟩ :=
      (createSession_redirect_chain twoHopSem { MaxRedirect := 2, Debuging := false }
        reqStringStub 2 _ _ _ _ hchain hterm).2 (le_refl _)
    rw [hcs]
    have hw : wM = ((reqGET "/").redirect ["hop2"], ()) := by
      have := hM.symm.trans hchain
      exact Option.some.inj this
    subst hw
    have hdec : CreateErrSession 500 "over limited redirect"
        (reqinfoFunc { MaxRedirect := 2, Debuging := false } reqStringStub
          ((reqGET "/").redirect ["hop2"], ()).1) =
        some ⟨500, "<h1>500 Internal Server Error</h1><p>over limited redirect</p>"⟩ := by
      decide
    rw [Option.some.inj (he.symm.trans hdec)]
  · exact (createSession_redirect_chain twoHopSem { MaxRedirect := 3, Debuging := false }
      reqStringStub 2 _ _ _ _ hchain hterm).1 (by decide)

end Evaluations

/-! ## Registration in the method router: properties -/

section RestRegistration

variable {H : Type}

theorem mapGet_mapSet_self {β : Type} (m : List (String × β)) (k : String) (v : β) :
    mapGet (mapSet m k v) k = some v := by
  induction m with
  | nil => simp [mapSet, mapGet]
  | cons e rest ih =>
    obtain ⟨k0, v0⟩ := e
    by_cases hk : k0 = k
    · simp [mapSet, mapGet, hk]
    · simp [mapSet, mapGet, hk, ih]

theorem mapGet_mapSet_ne {β : Type} (m : List (String × β)) (k k' : String) (v : β)
    (hne : k' ≠ k) : mapGet (mapSet m k v) k' = mapGet m k' := by
  induction m with
  | nil =>
    have : ¬ k = k' := fun h => hne h.symm
    simp [mapSet, mapGet, this]
  | cons e rest ih =>
    obtain ⟨k0, v0⟩ := e
    by_cases hk : k0 = k
    · have : ¬ k = k' := fun h => hne h.symm
      simp [mapSet, mapGet, hk, this]
    · by_cases hk' : k0 = k'
      · subst hk'
        simp [mapSet, mapGet, hk]
      · simp [mapSet, mapGet, hk, hk', ih]

theorem mapSet_absent {β : Type} (m : List (String × β)) (k : String) (v : β)
    (hg : mapGet m k = none) : mapSet m k v = m ++ [(k, v)] := by
  induction m with
  | nil => rfl
  | cons e rest ih =>
    obtain ⟨k0, v0⟩ := e
    simp only [mapGet] at hg
    by_cases hk : k0 = k
    · simp [hk] at hg
    · simp only [hk, if_false] at hg
      simp [mapSet, hk, ih hg]

theorem mapGet_none_not_mem {β : Type} (m : List (String × β)) (k : String)
    (hg : mapGet m k = none) : k ∉ m.map Prod.fst := by
  induction m with
  | nil => simp
  | cons e rest ih =>
    obtain ⟨k0, v0⟩ := e
    simp only [mapGet] at hg
    by_cases hk : k0 = k
    · simp [hk] at hg
    · simp only [hk, if_false] at hg
      simp only [List.map_cons, List.mem_cons, not_or]
      exact ⟨fun h => hk h.symm, ih hg⟩

theorem checkRESTMethod_iff (m : String) :
    checkRESTMethod m = true ↔
      m ∈ ["DELETE", "GET", "HEAD", "OPTIONS", "PATCH", "POST", "PUT"] := by
  simp only [checkRESTMethod, supportedRESTTab, mapGet, List.mem_cons, List.mem_singleton,
    List.not_mem_nil, or_false]
  constructor
  · intro hm
    by_contra hcon
    simp only [not_or] at hcon
    obtain ⟨h1, h2, h3, h4, h5, h6, h7⟩ := hcon
    simp [Ne.symm h1, Ne.symm h2, Ne.symm h3, Ne.symm h4, Ne.symm h5, Ne.symm h6,
      Ne.symm h7] at hm
  · intro hm
    rcases hm with h | h | h | h | h | h | h <;> subst h <;> decide

/-- How `Handle` of the method router ends, case by case. -/
theorem restHandle_cases (rhnd : frmRteREST H) (m : String) (h : H) :
    (checkRESTMethod m = true ∧ mapGet rhnd.allmth m = none ∧
      rhnd.Handle m h =
        (.ok (), { rhnd with
          allmth := mapSet rhnd.allmth m h, nodes := rhnd.nodes ++ [(m, h)] })) ∨
    (¬ (checkRESTMethod m = true ∧ mapGet rhnd.allmth m = none) ∧
      ∃ msg, rhnd.Handle m h = (.panic msg, rhnd)) := by
  unfold frmRteREST.Handle frmRteREST.checkHandleName
  cases hc : checkRESTMethod m with
  | false => exact Or.inr ⟨by simp, "unsupported method " ++ m, by simp⟩
  | true =>
    cases hg : mapGet rhnd.allmth m with
    | none => exact Or.inl ⟨rfl, rfl, by simp⟩
    | some v => exact Or.inr ⟨by simp, "method " ++ m ++ " already registed", by simp⟩

/-- What every sequence of `Handle` calls keeps true of a method router: no
method name is bound twice, every bound name is a recognised method, and the
entry list is the table. -/
theorem runHandles_invariant (calls : List (String × H)) :
    ∀ rhnd : frmRteREST H,
      ((rhnd.allmth.map Prod.fst).Nodup ∧
        (∀ k ∈ rhnd.allmth.map Prod.fst, checkRESTMethod k = true) ∧
        rhnd.nodes = rhnd.allmth) →
      (((runHandles rhnd calls).allmth.map Prod.fst).Nodup ∧
        (∀ k ∈ (runHandles rhnd calls).allmth.map Prod.fst, checkRESTMethod k = true) ∧
        (runHandles rhnd calls).nodes = (runHandles rhnd calls).allmth) := by
  induction calls with
  | nil => intro rhnd h; exact h
  | cons c rest ih =>
    intro rhnd hinv
    obtain ⟨hnd, hrec, hnodes⟩ := hinv
    simp only [runHandles, List.foldl_cons]
    apply ih
    rcases restHandle_cases rhnd c.1 c.2 with ⟨hc, hg, heq⟩ | ⟨_, msg, heq⟩
    · rw [heq]
      simp only [mapSet_absent _ _ _ hg, List.map_append, List.map_cons, List.map_nil]
      refine ⟨?_, ?_, by rw [hnodes]⟩
      · rw [List.nodup_append]
        refine ⟨hnd, by simp, ?_⟩
        intro a ha hb
        simp only [List.mem_singleton] at hb
        subst hb
        exact mapGet_none_not_mem _ _ hg ha
      · intro k hk
        simp only [List.mem_append, List.mem_singleton] at hk
        rcases hk with hk | hk
        · exact hrec k hk
        · rw [hk]; exact hc
    · rw [heq]
      exact ⟨hnd, hrec, hnodes⟩

/-- Claim C11: `Handle(m, h)` of a method router returns normally exactly when
`m` is one of the seven recognised methods and has no handler yet; it then
binds `m` to `h`, leaves every other binding as it was and appends the entry;
when it panics the router is unchanged. Hence, after any sequence of `Handle`
calls on a new method router, no method is bound twice, every bound name is
recognised, and the entry list is the table. -/
theorem restHandle_registration (rhnd : frmRteREST H) (m : String) (h : H) :
    ((rhnd.Handle m h).1 = .ok () ↔
      (m ∈ ["DELETE", "GET", "HEAD", "OPTIONS", "PATCH", "POST", "PUT"] ∧
        mapGet rhnd.allmth m = none)) ∧
    ((rhnd.Handle m h).1 = .ok () →
      mapGet (rhnd.Handle m h).2.allmth m = some h ∧
      (∀ k, k ≠ m → mapGet (rhnd.Handle m h).2.allmth k = mapGet rhnd.allmth k) ∧
      (rhnd.Handle m h).2.nodes = rhnd.nodes ++ [(m, h)] ∧
      (rhnd.Handle m h).2.inst = rhnd.inst) ∧
    ((∃ msg, (rhnd.Handle m h).1 = .panic msg) → (rhnd.Handle m h).2 = rhnd) ∧
    ((rhnd.Handle m h).1 = .ok () ∨ ∃ msg, (rhnd.Handle m h).1 = .panic msg) ∧
    (∀ calls : List (String × H),
      ((runHandles (CreateRESTHandle H) calls).allmth.map Prod.fst).Nodup ∧
      (∀ k ∈ (runHandles (CreateRESTHandle H) calls).allmth.map Prod.fst,
        k ∈ ["DELETE", "GET", "HEAD", "OPTIONS", "PATCH", "POST", "PUT"]) ∧
      (runHandles (CreateRESTHandle H) calls).nodes =
        (runHandles (CreateRESTHandle H) calls).allmth) := by
  refine ⟨?_, ?_, ?_, ?_, ?_⟩
  · rw [← checkRESTMethod_iff]
    rcases restHandle_cases rhnd m h with ⟨hc, hg, heq⟩ | ⟨hn, msg, heq⟩
    · rw [heq]; exact ⟨fun _ => ⟨hc, hg⟩, fun _ => rfl⟩
    · rw [heq]
      exact ⟨fun hok => absurd hok (by simp), fun hcond => absurd hcond hn⟩
  · intro hok
    rcases restHandle_cases rhnd m h with ⟨_, _, heq⟩ | ⟨_, msg, heq⟩
    · rw [heq]
      exact ⟨mapGet_mapSet_self _ _ _, fun k hk => mapGet_mapSet_ne _ _ _ _ hk, rfl, rfl⟩
    · rw [heq] at hok
      exact absurd hok (by simp)
  · rintro ⟨msg, hp⟩
    rcases restHandle_cases rhnd m h with ⟨_, _, heq⟩ | ⟨_, msg', heq⟩
    · rw [heq] at hp
      exact absurd hp (by simp)
    · rw [heq]
  · rcases restHandle_cases rhnd m h with ⟨_, _, heq⟩ | ⟨_, msg, heq⟩
    · rw [heq]; exact Or.inl rfl
    · rw [heq]; exact Or.inr ⟨msg, rfl⟩
  · intro calls
    obtain ⟨h1, h2, h3⟩ := runHandles_invariant calls (CreateRESTHandle H)
      ⟨by simp [CreateRESTHandle], by simp [CreateRESTHandle], rfl⟩
    exact ⟨h1, fun k hk => (checkRESTMethod_iff k).mp (h2 k hk), h3⟩

end RestRegistration

/-! ## The two "method not allowed" sessions -/

section MethodNotAllowed

variable {H ρ : Type}

/-- Claim C12 (counterexample): with debug mode off, the session of the method
router for the unrecognised method `BREW` and the session for the recognised
but unregistered method `DELETE` have the same status 405 but return different
body bytes. -/
theorem rest_405_bodies_differ :
    restGetPost.BeginSession reqStringStub bsRecord (createReqObj "BREW" "/x") =
      .created (some ⟨405, "<h1>405 Method Not Allowed</h1><p>unsupported method</p>"⟩) ∧
    restGetPost.BeginSession reqStringStub bsRecord (createReqObj "DELETE" "/x") =
      .created (some ⟨405, "<h1>405 Method Not Allowed</h1><p>method not implement</p>"⟩) ∧
    decide ((⟨405, "<h1>405 Method Not Allowed</h1><p>unsupported method</p>"⟩ :
        errHandle).WriteResponse =
      (⟨405, "<h1>405 Method Not Allowed</h1><p>method not implement</p>"⟩ :
        errHandle).WriteResponse) = false := by
  decide

/-- Claim C12, as amended: with debug mode off, the session an initialised
method router returns for an unrecognised method and the one it returns for a
recognised method without handler have the same status 405 and make the same
header mutation, and their bodies are the same page up to the message
paragraph, which reads "unsupported method" in the first and "method not
implement" in the second: the bodies differ. -/
theorem rest_405_sessions (rhnd : frmRteREST H) (conf : InstConfig)
    (reqString : svrRspObj → String) (bs : H → svrRspObj → ρ) (req1 req2 : svrRspObj)
    (hinit : rhnd.inst = some conf)
    (hdebug : conf.Debuging = false)
    (hunrec : checkRESTMethod req1.Method = false)
    (hrec : checkRESTMethod req2.Method = true)
    (hunreg : mapGet rhnd.allmth req2.Method = none) :
    ∃ e1 e2 : errHandle,
      rhnd.BeginSession reqString bs req1 = .created (some e1) ∧
      rhnd.BeginSession reqString bs req2 = .created (some e2) ∧
      (∀ header, (e1.BeginResponse header).1 = 405 ∧ (e2.BeginResponse header).1 = 405 ∧
        (e1.BeginResponse header).2 = (e2.BeginResponse header).2) ∧
      e1.WriteResponse = "<h1>405 Method Not Allowed</h1><p>" ++ "unsupported method" ++ "</p>" ∧
      e2.WriteResponse = "<h1>405 Method Not Allowed</h1><p>" ++ "method not implement" ++ "</p>" ∧
      e1.WriteResponse ≠ e2.WriteResponse := by
  have h1 : CreateErrSession 405 "unsupported method" (DebugMsg conf reqString req1) =
      some ⟨405, "<h1>405 Method Not Allowed</h1><p>unsupported method</p>"⟩ := by
    simp only [DebugMsg, hdebug, Bool.false_eq_true, if_false]
    decide
  have h2 : CreateErrSession 405 "method not implement" (DebugMsg conf reqString req2) =
      some ⟨405, "<h1>405 Method Not Allowed</h1><p>method not implement</p>"⟩ := by
    simp only [DebugMsg, hdebug, Bool.false_eq_true, if_false]
    decide
  refine ⟨⟨405, "<h1>405 Method Not Allowed</h1><p>unsupported method</p>"⟩,
    ⟨405, "<h1>405 Method Not Allowed</h1><p>method not implement</p>"⟩, ?_, ?_, ?_, ?_, ?_, ?_⟩
  · simp [frmRteREST.BeginSession, hinit, hunrec, h1]
  · simp [frmRteREST.BeginSession, hinit, hrec, hunreg, h2]
  · intro header
    exact ⟨rfl, rfl, rfl⟩
  · decide
  · decide
  · decide

theorem rest_405_sessions_witness :
    checkRESTMethod (createReqObj "BREW" "/x").Method = false ∧
    checkRESTMethod (createReqObj "DELETE" "/x").Method = true ∧
    mapGet restGetPost.allmth (createReqObj "DELETE" "/x").Method = none ∧
    (∃ e1 e2 : errHandle,
      restGetPost.BeginSession reqStringStub bsRecord (createReqObj "BREW" "/x") =
        .created (some e1) ∧
      restGetPost.BeginSession reqStringStub bsRecord (createReqObj "DELETE" "/x") =
        .created (some e2) ∧
      (∀ header, (e1.BeginResponse header).1 = 405 ∧ (e2.BeginResponse header).1 = 405 ∧
        (e1.BeginResponse header).2 = (e2.BeginResponse header).2) ∧
      e1.WriteResponse = "<h1>405 Method Not Allowed</h1><p>" ++ "unsupported method" ++ "</p>" ∧
      e2.WriteResponse = "<h1>405 Method Not Allowed</h1><p>" ++ "method not implement" ++ "</p>" ∧
      e1.WriteResponse ≠ e2.WriteResponse) :=
  ⟨by decide, by decide, by decide,
    rest_405_sessions restGetPost confDefault reqStringStub bsRecord
      (createReqObj "BREW" "/x") (createReqObj "DELETE" "/x") rfl rfl (by decide) (by decide)
      (by decide)⟩

end MethodNotAllowed

/-! ## What registration stores -/

section Stores

variable {H : Type}

theorem dropLast_append_getLast! (l : List String) (hne : l ≠ []) :
    l.dropLast ++ [l.getLast!] = l := by
  have h1 : l.getLast? = some (l.getLast hne) := List.getLast?_eq_getLast l hne
  rw [List.getLast!_of_getLast? h1]
  exact List.dropLast_append_getLast hne

theorem leafAt_cons (m : PathMap H) (l : String) (rest : List String) :
    leafAt m (l :: rest) =
      (match mapGet m l with
        | some (.hnd h) => if rest = [] then some h else none
        | some (.dir sub) => leafAt sub rest
        | none => none) := by
  rfl

/-- A handler that the trie holds at exactly `Q` is what the walk along `Q`
finds, with all of `Q` as matched prefix. -/
theorem findPathLoop_of_leafAt (np : Bool) (Q : List String) (hne : ∀ seg ∈ Q, seg ≠ "") :
    ∀ (m : PathMap H) (h : H) (i : Bool) (s : List String), leafAt m Q = some h →
      (findPathLoop np Q m i s).1 = (some (.hnd h), (i || Q.any isInner), s ++ Q) := by
  induction Q with
  | nil => intro m h i s hl; simp [leafAt] at hl
  | cons l rest ih =>
    intro m h i s hl
    have hl0 : l ≠ "" := hne l (by simp)
    have hrest : ∀ seg ∈ rest, seg ≠ "" := fun seg hm => hne seg (by simp [hm])
    rw [leafAt_cons] at hl
    simp only [findPathLoop, hl0, if_false]
    cases hg : mapGet m l with
    | none => simp [hg] at hl
    | some nd =>
      cases nd with
      | hnd h0 =>
        simp only [hg] at hl
        by_cases hr : rest = []
        · subst hr
          simp only [if_true, Option.some.injEq] at hl
          subst hl
          simp only [List.any_cons, List.any_nil, Bool.or_false]
          cases isInner l <;> cases i <;> simp
        · simp [hr] at hl
      | dir sub =>
        simp only [hg] at hl
        rw [ih hrest sub h _ _ hl]
        simp only [List.any_cons, List.append_assoc, List.singleton_append]
        cases isInner l <;> cases i <;> simp

theorem findHandle_of_leafAt (rhnd : frmRtePath H) (Q : List String) (h : H)
    (hne : ∀ seg ∈ Q, seg ≠ "") (hl : leafAt rhnd.allpath Q = some h) :
    rhnd.findHandle Q = (some h, Q.any isInner, Q) := by
  have hq : ¬ Q.length < 1 := by
    cases Q with
    | nil => simp [leafAt] at hl
    | cons a t => simp
  unfold frmRtePath.findHandle frmRtePath.findPath
  simp only [hq, if_false]
  rw [findPathLoop_of_leafAt false Q hne rhnd.allpath h false [] hl]
  simp

/-- The creating walk, when it ends at a map, has gone through every segment. -/
theorem findPathLoop_true_stack (P : List String) (hne : ∀ seg ∈ P, seg ≠ "") :
    ∀ (m : PathMap H) (i : Bool) (s : List String) (pmap : PathMap H) (i' : Bool)
      (s' : List String),
      (findPathLoop true P m i s).1 = (some (.dir pmap), i', s') → s' = s ++ P := by
  induction P with
  | nil =>
    intro m i s pmap i' s' hf
    simp only [findPathLoop, Prod.mk.injEq] at hf
    simp [hf.2.2]
  | cons l rest ih =>
    intro m i s pmap i' s' hf
    have hl0 : l ≠ "" := hne l (by simp)
    have hrest : ∀ seg ∈ rest, seg ≠ "" := fun seg hm => hne seg (by simp [hm])
    simp only [findPathLoop, hl0, if_false] at hf
    cases hg : mapGet m l with
    | none =>
      simp only [hg, if_true] at hf
      rw [ih hrest _ _ _ _ _ _ hf]
      simp
    | some nd =>
      cases nd with
      | hnd h0 => simp [hg] at hf
      | dir sub =>
        simp only [hg] at hf
        rw [ih hrest _ _ _ _ _ _ hf]
        simp

/-- Storing a handler under `last` in the map that the creating walk along
`pre` reached, where `last` was unbound: the trie then holds the handler at
`pre ++ [last]`, and holds every handler it held before. -/
theorem storeAt_leafAt (last : String) (h : H) (pre : List String)
    (hne : ∀ seg ∈ pre, seg ≠ "") :
    ∀ (m : PathMap H) (i : Bool) (s : List String) (pmap : PathMap H) (i' : Bool)
      (s' : List String),
      (findPathLoop true pre m i s).1 = (some (.dir pmap), i', s') →
      mapGet pmap last = none →
      leafAt (storeAt (findPathLoop true pre m i s).2 pre last (.hnd h)) (pre ++ [last]) =
        some h ∧
      ∀ (Q : List String) (h' : H), leafAt m Q = some h' →
        leafAt (storeAt (findPathLoop true pre m i s).2 pre last (.hnd h)) Q = some h' := by
  induction pre with
  | nil =>
    intro m i s pmap i' s' hf hlast
    simp only [findPathLoop, Prod.mk.injEq, Option.some.injEq, PathNode.dir.injEq] at hf
    obtain ⟨hm, _, _⟩ := hf
    subst hm
    simp only [findPathLoop, storeAt, List.nil_append]
    constructor
    · simp [leafAt_cons, mapGet_mapSet_self]
    · intro Q h' hQ
      cases Q with
      | nil => simp [leafAt] at hQ
      | cons q rest =>
        rw [leafAt_cons] at hQ ⊢
        by_cases hq : q = last
        · subst hq
          simp [hlast] at hQ
        · rw [mapGet_mapSet_ne _ _ _ _ hq]
          exact hQ
  | cons p pre' ih =>
    intro m i s pmap i' s' hf hlast
    have hp0 : p ≠ "" := hne p (by simp)
    have hrest : ∀ seg ∈ pre', seg ≠ "" := fun seg hm => hne seg (by simp [hm])
    simp only [findPathLoop, hp0, if_false] at hf ⊢
    have key : ∀ (sub : PathMap H),
        (mapGet m p = none ∧ sub = []) ∨ mapGet m p = some (.dir sub) →
        (findPathLoop true pre' sub (if isInner p then true else i) (s ++ [p])).1 =
          (some (.dir pmap), i', s') →
        leafAt (storeAt (mapSet m p (.dir (findPathLoop true pre' sub
            (if isInner p then true else i) (s ++ [p])).2)) (p :: pre') last (.hnd h))
          (p :: pre' ++ [last]) = some h ∧
        ∀ (Q : List String) (h' : H), leafAt m Q = some h' →
          leafAt (storeAt (mapSet m p (.dir (findPathLoop true pre' sub
            (if isInner p then true else i) (s ++ [p])).2)) (p :: pre') last (.hnd h)) Q =
            some h' := by
      intro sub hsub hf'
      obtain ⟨ihnew, ihold⟩ := ih hrest sub _ _ pmap i' s' hf' hlast
      have hstore : storeAt (mapSet m p (.dir (findPathLoop true pre' sub
            (if isInner p then true else i) (s ++ [p])).2)) (p :: pre') last (.hnd h) =
          mapSet (mapSet m p (.dir (findPathLoop true pre' sub
            (if isInner p then true else i) (s ++ [p])).2)) p
            (.dir (storeAt (findPathLoop true pre' sub
              (if isInner p then true else i) (s ++ [p])).2 pre' last (.hnd h))) := by
        simp only [storeAt, mapGet_mapSet_self]
      rw [hstore]
      constructor
      · rw [List.cons_append, leafAt_cons, mapGet_mapSet_self]
        exact ihnew
      · intro Q h' hQ
        cases Q with
        | nil => simp [leafAt] at hQ
        | cons q rest =>
          rw [leafAt_cons] at hQ ⊢
          by_cases hq : q = p
          · subst hq
            rw [mapGet_mapSet_self]
            rcases hsub with ⟨hnone, _⟩ | hdir
            · simp [hnone] at hQ
            · rw [hdir] at hQ
              exact ihold rest h' hQ
          · rw [mapGet_mapSet_ne _ _ _ _ hq, mapGet_mapSet_ne _ _ _ _ hq]
            exact hQ
    cases hg : mapGet m p with
    | none =>
      simp only [hg, if_true] at hf ⊢
      exact key [] (Or.inl ⟨hg, rfl⟩) hf
    | some nd =>
      cases nd with
      | hnd h0 => simp [hg] at hf
      | dir sub =>
        simp only [hg] at hf ⊢
        exact key sub (Or.inr hg) hf

/-- What a registration that returns normally has done to a path router, for a
pattern without empty segment: for the nil pattern the fallback handler is
set; otherwise the trie holds the handler at exactly the pattern and the entry
is appended to `nodes`. Every handler that the trie held before is still held,
unless the pattern is a single segment that was already bound in the top
map. -/
theorem insertHandle_ok_stores (rhnd : frmRtePath H) (pattern : List String) (h : H)
    (hne : ∀ seg ∈ pattern, seg ≠ "")
    (hok : (rhnd.insertHandle pattern (some h)).1 = .ok ()) :
    (rhnd.insertHandle pattern (some h)).2.inst = rhnd.inst ∧
    (pattern = [] →
      rhnd.rootnode = none ∧
      (rhnd.insertHandle pattern (some h)).2 = { rhnd with rootnode := some h }) ∧
    (pattern ≠ [] →
      leafAt (rhnd.insertHandle pattern (some h)).2.allpath pattern = some h ∧
      (rhnd.insertHandle pattern (some h)).2.nodes = rhnd.nodes ++ [(pattern, h)] ∧
      (rhnd.insertHandle pattern (some h)).2.rootnode = rhnd.rootnode ∧
      pattern.length ≤ restMethodCount) ∧
    (∀ (Q : List String) (h' : H),
      (∀ p0, pattern = [p0] → mapGet rhnd.allpath p0 = none) →
      leafAt rhnd.allpath Q = some h' →
      leafAt (rhnd.insertHandle pattern (some h)).2.allpath Q = some h') := by
  have hcomb : ∀ (r : frmRtePath H),
      (r.combineRoute pattern h).1 = .ok () →
      pattern.length ≤ restMethodCount ∧
      (r.combineRoute pattern h).2 = { r with nodes := r.nodes ++ [(pattern, h)] } := by
    intro r hr
    by_cases hlen : pattern.length > restMethodCount
    · simp [frmRtePath.combineRoute, hlen] at hr
    · exact ⟨by omega, by simp [frmRtePath.combineRoute, hlen]⟩
  match pattern, hne, hok, hcomb with
  | [], _, hok, _ =>
    simp only [frmRtePath.insertHandle, frmRtePath.setRoot] at hok ⊢
    cases hr : rhnd.rootnode with
    | some r => simp [hr] at hok
    | none =>
      refine ⟨rfl, fun _ => ⟨rfl, rfl⟩, fun hcon => absurd rfl hcon, ?_⟩
      intro Q h' _ hQ
      exact hQ
  | [p0], _, hok, hcomb =>
    simp only [frmRtePath.insertHandle] at hok ⊢
    obtain ⟨hlen, heq⟩ := hcomb _ hok
    rw [heq]
    refine ⟨rfl, fun hcon => absurd hcon (by simp), fun _ => ⟨?_, rfl, rfl, hlen⟩, ?_⟩
    · simp [leafAt_cons, mapGet_mapSet_self]
    · intro Q h' hfresh hQ
      have hnone : mapGet rhnd.allpath p0 = none := hfresh p0 rfl
      cases Q with
      | nil => simp [leafAt] at hQ
      | cons q rest =>
        rw [leafAt_cons] at hQ
        simp only [leafAt_cons]
        by_cases hq : q = p0
        · subst hq
          simp [hnone] at hQ
        · rw [mapGet_mapSet_ne _ _ _ _ hq]
          exact hQ
  | p0 :: p1 :: rest, hne, hok, hcomb =>
    have hpre : ∀ seg ∈ (p0 :: p1 :: rest).dropLast, seg ≠ "" :=
      fun seg hm => hne seg (List.mem_of_mem_dropLast hm)
    have hsplit := dropLast_append_getLast! (p0 :: p1 :: rest) (by simp)
    have hl : ¬ ((p0 :: p1 :: rest).dropLast.length < 1) := by
      simp [List.dropLast]
    simp only [frmRtePath.insertHandle, frmRtePath.findPath, hl, if_false] at hok ⊢
    have hst := storeAt_leafAt (p0 :: p1 :: rest).getLast! h (p0 :: p1 :: rest).dropLast hpre
      rhnd.allpath false []
    have hstack := findPathLoop_true_stack (p0 :: p1 :: rest).dropLast hpre rhnd.allpath false []
    generalize hres : findPathLoop true (p0 :: p1 :: rest).dropLast rhnd.allpath false [] = res
      at hok hst hstack ⊢
    obtain ⟨⟨node, i', s'⟩, m'⟩ := res
    cases node with
    | none => simp at hok
    | some nd =>
      cases nd with
      | hnd h0 => simp at hok
      | dir pmap =>
        simp only at hok ⊢
        cases hg : mapGet pmap (p0 :: p1 :: rest).getLast! with
        | some v => simp [hg] at hok
        | none =>
          simp only [hg] at hok ⊢
          obtain ⟨hlen, heq⟩ := hcomb _ hok
          rw [heq]
          have hs' : s' = (p0 :: p1 :: rest).dropLast := by
            have := hstack pmap i' s' rfl
            simpa using this
          subst hs'
          obtain ⟨hnew, hold⟩ := hst pmap i' _ rfl hg
          rw [hsplit] at hnew
          exact ⟨rfl, fun hcon => absurd hcon (by simp), fun _ => ⟨hnew, rfl, rfl, hlen⟩,
            fun Q h' _ hQ => hold Q h' hQ⟩

/-- After a registration that returned normally, the path router resolves the
registered pattern to the registered handler, with the whole pattern as
matched prefix. -/
theorem insertHandle_ok_findHandle (rhnd : frmRtePath H) (pattern : List String) (h : H)
    (hne : ∀ seg ∈ pattern, seg ≠ "")
    (hok : (rhnd.insertHandle pattern (some h)).1 = .ok ()) :
    (rhnd.insertHandle pattern (some h)).2.findHandle pattern =
      (some h, pattern.any isInner, pattern) := by
  obtain ⟨_, hroot, hleaf, _⟩ := insertHandle_ok_stores rhnd pattern h hne hok
  by_cases hp : pattern = []
  · subst hp
    rw [(hroot rfl).2]
    simp [frmRtePath.findHandle, frmRtePath.findPath, frmRtePath.getRoot]
  · exact findHandle_of_leafAt _ pattern h hne (hleaf hp).1

/-- Every handler registered at a non-empty path by a sequence of
registrations that all returned normally, none of them a one-segment path over
a bound segment, is held by the trie at exactly its path. -/
theorem registerAll_leafAt (regs : List (List String × H)) :
    ∀ (rhnd0 rhnd : frmRtePath H),
      registerAll rhnd0 regs = .ok rhnd →
      freshSingles rhnd0 regs = true →
      (∀ reg ∈ regs, ∀ seg ∈ reg.1, seg ≠ "") →
      (∀ (Q : List String) (h' : H), leafAt rhnd0.allpath Q = some h' →
        leafAt rhnd.allpath Q = some h') ∧
      (∀ reg ∈ regs, reg.1 ≠ [] → leafAt rhnd.allpath reg.1 = some reg.2) ∧
      rhnd.inst = rhnd0.inst := by
  induction regs with
  | nil =>
    intro rhnd0 rhnd hreg _ _
    simp only [registerAll, Res.ok.injEq] at hreg
    subst hreg
    exact ⟨fun _ _ hQ => hQ, fun reg hm => absurd hm (by simp), rfl⟩
  | cons reg rest ih =>
    intro rhnd0 rhnd hreg hfresh hwf
    obtain ⟨p, h⟩ := reg
    simp only [registerAll] at hreg
    simp only [freshSingles, Bool.and_eq_true] at hfresh
    obtain ⟨hfr, hfrest⟩ := hfresh
    generalize hins : rhnd0.insertHandle p (some h) = res at hreg hfrest
    obtain ⟨out, r1⟩ := res
    cases out with
    | panic msg => simp at hreg
    | ok u =>
      simp only at hreg hfrest
      have hok : (rhnd0.insertHandle p (some h)).1 = .ok () := by rw [hins]
      have hr1 : (rhnd0.insertHandle p (some h)).2 = r1 := by rw [hins]
      have hnep : ∀ seg ∈ p, seg ≠ "" := hwf (p, h) (by simp)
      obtain ⟨hinst, _, hleaf, hkeep⟩ := insertHandle_ok_stores rhnd0 p h hnep hok
      rw [hr1] at hinst hleaf hkeep
      obtain ⟨ihold, ihnew, ihinst⟩ := ih r1 rhnd hreg hfrest
        (fun reg hm => hwf reg (by simp [hm]))
      have hfr' : ∀ p0, p = [p0] → mapGet rhnd0.allpath p0 = none := by
        intro p0 hp
        subst hp
        simpa using hfr
      refine ⟨fun Q h' hQ => ihold Q h' (hkeep Q h' hfr' hQ), ?_, by rw [ihinst, hinst]⟩
      intro reg hm hne
      rcases List.mem_cons.mp hm with heq | hin
      · subst heq
        exact ihold p h (hleaf hne).1
      · exact ihnew reg hin hne

/-- Requests below a registered path, from the registrations: on a router
built from the empty one by a sequence of successful registrations of paths of
non-empty segments, none of them a one-segment path on a bound segment, and
then initialised, a request whose relative path is a registered non-nil path
`P` without `@` segments followed by a remainder `R` is handed to the handler
registered at `P`, with relative path `R` and the full path unchanged. -/
theorem beginSession_registered_terminal (regs : List (List String × H))
    (rhnd : frmRtePath H) (conf : InstConfig) (ptree : Option (RouteTree E))
    (reqString : svrRspObj → String) (bs : H → svrRspObj → ρ) (req : svrRspObj)
    (h : H) (P R : List String)
    (hreg : registerAll (CreatePathHandle H) regs = .ok rhnd)
    (hfresh : freshSingles (CreatePathHandle H) regs = true)
    (hseg : ∀ reg ∈ regs, ∀ seg ∈ reg.1, seg ≠ "")
    (hmem : (P, h) ∈ regs)
    (hne : P ≠ [])
    (hpub : ∀ seg ∈ P, isInner seg = false)
    (hrel : req.relpath = P ++ R) :
    (rhnd.InitHandler conf ptree).1.BeginSession reqString bs req =
      .delegated (bs h { req with relpath := R }) ∧
    ({ req with relpath := R } : svrRspObj).fullpath = req.fullpath := by
  obtain ⟨_, hleaf, _⟩ := registerAll_leafAt regs (CreatePathHandle H) rhnd hreg hfresh hseg
  have hl : leafAt (rhnd.InitHandler conf ptree).1.allpath P = some h := hleaf (P, h) hmem hne
  have hfind := findHandle_of_leafAt (rhnd.InitHandler conf ptree).1 P h (hseg (P, h) hmem) hl
  exact ⟨(beginSession_stops_at_terminal (rhnd.InitHandler conf ptree).1 conf reqString bs req
    h (P.any isInner) P R rfl hfind hne hpub hrel).2.1, rfl⟩

theorem beginSession_registered_terminal_example :
    (routerApi.findHandle ["api", "v1"]).1 = some 3 ∧
    ((match registerAll (CreatePathHandle Nat) [(["api", "v1"], 3), (["b"], 4)] with
      | .ok rhnd => rhnd
      | .panic _ => CreatePathHandle Nat).InitHandler confDefault
        (none : Option (RouteTree Unit))).1.BeginSession reqStringStub bsRecord
        (reqGET "/api/v1/users/42") =
      .delegated (3, { reqGET "/api/v1/users/42" with relpath := ["users", "42"] }) :=
  ⟨by decide,
    (beginSession_registered_terminal [(["api", "v1"], 3), (["b"], 4)]
      (match registerAll (CreatePathHandle Nat) [(["api", "v1"], 3), (["b"], 4)] with
        | .ok rhnd => rhnd
        | .panic _ => CreatePathHandle Nat)
      confDefault none reqStringStub bsRecord (reqGET "/api/v1/users/42") 3 ["api", "v1"]
      ["users", "42"] (by rfl) (by rfl) (by decide) (by decide) (by decide) (by decide)
      (by decide)).1⟩

end Stores

/-! ## Registration after the initialization traversal -/

section LateRegistration

variable {H E : Type}

/-- Claim C13 (counterexample): on a path router holding handler 1 at `/a` whose
`InitHandler` has run, `insertHandle(["b"], 2)` returns normally and `/b`,
which resolved to nothing before, then resolves to handler 2; on a method
router holding a handler for `GET` whose `InitHandler` has run,
`Handle("POST", 2)` returns normally and binds `POST`. -/
theorem registration_after_init_succeeds :
    (match registerAll (CreatePathHandle Nat) [(["a"], 1)] with
      | .ok r0 =>
        (match (r0.InitHandler confDefault (none : Option (RouteTree Unit))).1.insertHandle
            ["b"] (some 2) with
          | (.ok _, r1) => some (r0.findHandle ["b"], r1.inst, r1.findHandle ["b"], r1.nodes)
          | (.panic _, _) => none)
      | .panic _ => none) =
      some ((none, false, []), some confDefault, (some 2, false, ["b"]),
        [(["a"], 1), (["b"], 2)]) ∧
    (((runHandles (CreateRESTHandle Nat) [("GET", 1)]).InitHandler confDefault
        (none : Option (RouteTree Unit))).2.Handle "POST" 2).1 = .ok () ∧
    mapGet (((runHandles (CreateRESTHandle Nat) [("GET", 1)]).InitHandler confDefault
        (none : Option (RouteTree Unit))).2.Handle "POST" 2).2.allmth "POST" = some 2 :=
  ⟨by rfl, by decide, by decide⟩

theorem findPath_inst (rhnd : frmRtePath H) (i : Option InstConfig) (pattern : List String)
    (np : Bool) :
    ({ rhnd with inst := i } : frmRtePath H).findPath pattern np =
      ((rhnd.findPath pattern np).1, { (rhnd.findPath pattern np).2 with inst := i }) := by
  unfold frmRtePath.findPath
  by_cases hp : pattern.length < 1
  · simp only [hp, if_true, frmRtePath.getRoot]
  · simp only [hp, if_false]

theorem combineRoute_inst (rhnd : frmRtePath H) (i : Option InstConfig)
    (pattern : List String) (handler : H) :
    ({ rhnd with inst := i } : frmRtePath H).combineRoute pattern handler =
      ((rhnd.combineRoute pattern handler).1,
        { (rhnd.combineRoute pattern handler).2 with inst := i }) := by
  unfold frmRtePath.combineRoute
  by_cases hlen : pattern.length > restMethodCount
  · simp only [hlen, if_true]
  · simp only [hlen, if_false]

/-- Method `insertHandle` never reads `inst`: on the router with another
`inst` it ends the same way and leaves the same router but for `inst`. -/
theorem insertHandle_inst (rhnd : frmRtePath H) (i : Option InstConfig)
    (pattern : List String) (handler : Option H) :
    ({ rhnd with inst := i } : frmRtePath H).insertHandle pattern handler =
      ((rhnd.insertHandle pattern handler).1,
        { (rhnd.insertHandle pattern handler).2 with inst := i }) := by
  cases handler with
  | none => rfl
  | some h =>
    match pattern with
    | [] =>
      obtain ⟨i0, nodes, allpath, rootnode⟩ := rhnd
      cases rootnode <;> rfl
    | [p0] =>
      simp only [frmRtePath.insertHandle]
      exact combineRoute_inst { rhnd with allpath := mapSet rhnd.allpath p0 (.hnd h) } i _ _
    | p0 :: p1 :: rest =>
      simp only [frmRtePath.insertHandle, findPath_inst]
      generalize rhnd.findPath (p0 :: p1 :: rest).dropLast true = r
      obtain ⟨⟨node, i', s'⟩, r2⟩ := r
      cases node with
      | none => rfl
      | some nd =>
        cases nd with
        | hnd h0 => rfl
        | dir pmap =>
          simp only
          cases mapGet pmap (p0 :: p1 :: rest).getLast! with
          | some v => rfl
          | none =>
            simp only
            exact combineRoute_inst
              { r2 with allpath := storeAt r2.allpath s' (p0 :: p1 :: rest).getLast! (.hnd h) }
              i _ _

/-- Claim C13, as amended: registration is not gated on initialization. On a
router whose `InitHandler` has run (`inst` is set), `insertHandle` on a path
router and `Handle` on a method router end, by a normal return or by a panic,
exactly as on the same routing structure before initialization, and leave the
same routing structure. A registration that returns normally has added the
route: the path router then resolves the registered path (of non-empty
segments; the nil path for the fallback handler) to the registered handler
with the whole path as matched prefix, and has appended the entry; the method
router maps the method to the registered handler and has appended the entry.
A registration that panics leaves the router unchanged, for the path router
when the path has at most 7 segments. -/
theorem registration_ignores_init (rhnd : frmRtePath H) (rest : frmRteREST H)
    (inst : InstConfig) (ptree : Option (RouteTree E)) (pattern : List String) (m : String)
    (handler : H) (nilable : Option H) :
    (rhnd.InitHandler inst ptree).1.inst = some inst ∧
    (rhnd.InitHandler inst ptree).1.insertHandle pattern nilable =
      ((rhnd.insertHandle pattern nilable).1,
        { (rhnd.insertHandle pattern nilable).2 with inst := some inst }) ∧
    (((rhnd.InitHandler inst ptree).1.insertHandle pattern (some handler)).1 = .ok () →
      (∀ seg ∈ pattern, seg ≠ "") →
      ((rhnd.InitHandler inst ptree).1.insertHandle pattern (some handler)).2.findHandle pattern =
        (some handler, pattern.any isInner, pattern) ∧
      (pattern ≠ [] →
        ((rhnd.InitHandler inst ptree).1.insertHandle pattern (some handler)).2.nodes =
          rhnd.nodes ++ [(pattern, handler)]) ∧
      ((rhnd.InitHandler inst ptree).1.insertHandle pattern (some handler)).2.inst =
        some inst) ∧
    ((∃ msg, ((rhnd.InitHandler inst ptree).1.insertHandle pattern nilable).1 = .panic msg) →
      pattern.length ≤ restMethodCount →
      ((rhnd.InitHandler inst ptree).1.insertHandle pattern nilable).2 =
        (rhnd.InitHandler inst ptree).1) ∧
    (∀ calls, (rest.InitHandler inst ptree).1 = .ok calls →
      (rest.InitHandler inst ptree).2.inst = some inst ∧
      (rest.InitHandler inst ptree).2.Handle m handler =
        ((rest.Handle m handler).1, { (rest.Handle m handler).2 with inst := some inst }) ∧
      (((rest.InitHandler inst ptree).2.Handle m handler).1 = .ok () →
        mapGet ((rest.InitHandler inst ptree).2.Handle m handler).2.allmth m = some handler ∧
        ((rest.InitHandler inst ptree).2.Handle m handler).2.nodes =
          rest.nodes ++ [(m, handler)]) ∧
      ((∃ msg, ((rest.InitHandler inst ptree).2.Handle m handler).1 = .panic msg) →
        ((rest.InitHandler inst ptree).2.Handle m handler).2 =
          (rest.InitHandler inst ptree).2)) := by
  refine ⟨rfl, insertHandle_inst rhnd (some inst) pattern nilable, ?_, ?_, ?_⟩
  · intro hok hne
    obtain ⟨hinst, _, hleaf, _⟩ :=
      insertHandle_ok_stores (rhnd.InitHandler inst ptree).1 pattern handler hne hok
    exact ⟨insertHandle_ok_findHandle _ pattern handler hne hok,
      fun hp => (hleaf hp).2.1, hinst⟩
  · rintro ⟨msg, hp⟩ hlen
    exact insertHandle_panic_unchanged _ pattern nilable msg hlen hp
  · intro calls hok
    have hstate : (rest.InitHandler inst ptree).2 = { rest with inst := some inst } := by
      unfold frmRteREST.InitHandler at hok ⊢
      cases ptree with
      | none => rfl
      | some p =>
        by_cases hb : p.BindMethod = ""
        · simp [hb]
        · simp [hb] at hok
    rw [hstate]
    refine ⟨rfl, ?_, ?_, ?_⟩
    · unfold frmRteREST.Handle frmRteREST.checkHandleName
      cases checkRESTMethod m with
      | false => rfl
      | true =>
        cases mapGet rest.allmth m <;> rfl
    · intro hok'
      rcases restHandle_cases { rest with inst := some inst } m handler with
        ⟨_, _, heq⟩ | ⟨_, msg, heq⟩
      · rw [heq]
        exact ⟨mapGet_mapSet_self _ _ _, rfl⟩
      · rw [heq] at hok'
        exact absurd hok' (by simp)
    · rintro ⟨msg, hp⟩
      rcases restHandle_cases { rest with inst := some inst } m handler with
        ⟨_, _, heq⟩ | ⟨_, msg', heq⟩
      · rw [heq] at hp
        exact absurd hp (by simp)
      · rw [heq]

end LateRegistration

/-! ## Where a private segment makes a request forbidden -/

section PrivateAnywhere

variable {H ρ : Type}

/-- Claim C14 (counterexample): in the router that holds handler 1 at `/a` and
has no fallback, the external request `/a/@x`, whose private segment lies
below the terminal handler, is handed to handler 1 with relative path `@x`,
and the external request `/@zzz`, which matches nothing, gets the 404 error
session; in the router with fallback handler 9 the external request `/@zzz`
is handed to the fallback. None of them is answered 403. -/
theorem private_segment_outside_matched_part :
    (reqGET "/a/@x").isRedir = false ∧
    routerA.BeginSession reqStringStub bsRecord (reqGET "/a/@x") =
      .delegated (1, { reqGET "/a/@x" with relpath := ["@x"] }) ∧
    routerA.BeginSession reqStringStub bsRecord (reqGET "/@zzz") =
      .created (some ⟨404, "<h1>404 Not Found</h1><p>You known</p>"⟩) ∧
    routerApi.BeginSession reqStringStub bsRecord (reqGET "/@zzz") =
      .delegated (9, reqGET "/@zzz") := by
  decide

/-- Claim C14, as amended: for a request not marked redirected, `BeginSession`
of an initialised path router returns the 403 error session exactly when the
relative path resolves to a terminal handler through a matched prefix that
holds a segment beginning with `@`. When a handler is found through a matched
prefix without such a segment, that handler's `BeginSession` is returned,
whatever segments follow; when no handler is found, the fallback's
`BeginSession` or, without fallback, the 404 error session is returned,
whatever segments the path has. -/
theorem beginSession_forbidden_iff (rhnd : frmRtePath H) (conf : InstConfig)
    (reqString : svrRspObj → String) (bs : H → svrRspObj → ρ) (req : svrRspObj)
    (hinit : rhnd.inst = some conf)
    (hred : req.isRedir = false) :
    ((∃ e, rhnd.BeginSession reqString bs req = .created (some e) ∧ e.stateCode = 403) ↔
      (∃ h inner step, rhnd.findHandle (req.GetPath true) = (some h, inner, step) ∧
        ∃ seg ∈ step, isInner seg = true)) ∧
    (∀ h inner step, rhnd.findHandle (req.GetPath true) = (some h, inner, step) →
      (∀ seg ∈ step, isInner seg = false) →
      rhnd.BeginSession reqString bs req = .delegated (bs h (req.trimPath step).2)) ∧
    (∀ inner step, rhnd.findHandle (req.GetPath true) = (none, inner, step) →
      (∀ rootnode, rhnd.rootnode = some rootnode →
        rhnd.BeginSession reqString bs req = .delegated (bs rootnode req)) ∧
      (rhnd.rootnode = none →
        ∃ e, rhnd.BeginSession reqString bs req = .created (some e) ∧ e.stateCode = 404)) := by
  obtain ⟨e3, he3, hc3, _⟩ := CreateErrSession_some 403 "Forbidden" "Unavailable this locate"
    (DebugMsg conf reqString req) (by decide)
  obtain ⟨e4, he4, hc4, _⟩ := CreateErrSession_some 404 "Not Found" "You known"
    (DebugMsg conf reqString req) (by decide)
  have hpub : ∀ h inner step, rhnd.findHandle (req.GetPath true) = (some h, inner, step) →
      (∀ seg ∈ step, isInner seg = false) →
      rhnd.BeginSession reqString bs req = .delegated (bs h (req.trimPath step).2) := by
    intro h inner step hf hno
    have hin : inner = false := by
      rw [findHandle_inner rhnd _ h inner step hf]
      cases hany : step.any isInner with
      | false => rfl
      | true =>
        obtain ⟨seg, hmem, hseg⟩ := List.any_eq_true.mp hany
        rw [hno seg hmem] at hseg
        exact absurd hseg (by decide)
    subst hin
    simp [frmRtePath.BeginSession, hf, hinit]
  have hmiss : ∀ inner step, rhnd.findHandle (req.GetPath true) = (none, inner, step) →
      (∀ rootnode, rhnd.rootnode = some rootnode →
        rhnd.BeginSession reqString bs req = .delegated (bs rootnode req)) ∧
      (rhnd.rootnode = none →
        rhnd.BeginSession reqString bs req = .created (some e4)) := by
    intro inner step hf
    constructor
    · intro rootnode hroot
      simp [frmRtePath.BeginSession, hf, hinit, hroot]
    · intro hroot
      simp [frmRtePath.BeginSession, hf, hinit, hroot, he4]
  refine ⟨⟨?_, ?_⟩, hpub, fun inner step hf =>
    ⟨(hmiss inner step hf).1, fun hroot => ⟨e4, (hmiss inner step hf).2 hroot, hc4⟩⟩⟩
  · rintro ⟨e, hb, hc⟩
    generalize hres : rhnd.findHandle (req.GetPath true) = res at *
    obtain ⟨hnd, inner, step⟩ := res
    cases hnd with
    | none =>
      cases hroot : rhnd.rootnode with
      | some rootnode =>
        rw [(hmiss inner step rfl).1 rootnode hroot] at hb
        exact absurd hb (by simp)
      | none =>
        rw [(hmiss inner step rfl).2 hroot] at hb
        simp only [BeginResult.created.injEq, Option.some.injEq] at hb
        rw [← hb, hc4] at hc
        exact absurd hc (by decide)
    | some h =>
      refine ⟨h, inner, step, rfl, ?_⟩
      by_contra hno
      have hno' : ∀ seg ∈ step, isInner seg = false := by
        intro seg hmem
        cases hs : isInner seg with
        | false => rfl
        | true => exact absurd ⟨seg, hmem, hs⟩ hno
      rw [hpub h inner step rfl hno'] at hb
      exact absurd hb (by simp)
  · rintro ⟨h, inner, step, hf, seg, hmem, hseg⟩
    have hin : inner = true := by
      rw [findHandle_inner rhnd _ h inner step hf]
      exact List.any_eq_true.mpr ⟨seg, hmem, hseg⟩
    subst hin
    refine ⟨e3, ?_, hc3⟩
    simp [frmRtePath.BeginSession, hf, hinit, hred, he3]

theorem beginSession_forbidden_iff_witness :
    routerAdmin.findHandle ((reqGET "/@admin/x").GetPath true) = (some 7, true, ["@admin"]) ∧
    (∃ e, routerAdmin.BeginSession reqStringStub bsRecord (reqGET "/@admin/x") =
      .created (some e) ∧ e.stateCode = 403) ∧
    routerA.findHandle ((reqGET "/a/@x").GetPath true) = (some 1, false, ["a"]) ∧
    routerA.BeginSession reqStringStub bsRecord (reqGET "/a/@x") =
      .delegated (bsRecord 1 ((reqGET "/a/@x").trimPath ["a"]).2) ∧
    routerA.findHandle ((reqGET "/@zzz").GetPath true) = (none, false, []) ∧
    (∃ e, routerA.BeginSession reqStringStub bsRecord (reqGET "/@zzz") =
      .created (some e) ∧ e.stateCode = 404) :=
  ⟨by decide,
    (beginSession_forbidden_iff routerAdmin confDefault reqStringStub bsRecord
      (reqGET "/@admin/x") rfl (by decide)).1.mpr
      ⟨7, true, ["@admin"], by decide, "@admin", by decide, by decide⟩,
    by decide,
    (beginSession_forbidden_iff routerA confDefault reqStringStub bsRecord
      (reqGET "/a/@x") rfl (by decide)).2.1 1 false ["a"] (by decide) (by decide),
    by decide,
    ((beginSession_forbidden_iff routerA confDefault reqStringStub bsRecord
      (reqGET "/@zzz") rfl (by decide)).2.2 false [] (by decide)).2 rfl⟩

end PrivateAnywhere

/-! ## `trimPath`: when it fails -/

section TrimPath

/-- Claim C15: `trimPath(p)` returns an error exactly when `p` is not literally
a prefix of the current relative path; on error the request context is
unchanged; on success the new relative path is the old one without its first
`len(p)` segments, and nothing else changes. -/
theorem trimPath_error_iff (srq : svrRspObj) (p : List String) :
    ((srq.trimPath p).1.isSome = true ↔ ¬ p <+: srq.relpath) ∧
    ((srq.trimPath p).1.isSome = true → (srq.trimPath p).2 = srq) ∧
    ((srq.trimPath p).1 = none →
      (srq.trimPath p).2 = { srq with relpath := srq.relpath.drop p.length } ∧
      srq.relpath = p ++ (srq.trimPath p).2.relpath) := by
  unfold svrRspObj.trimPath
  cases hchk : trimPathCheck srq.relpath 0 p with
  | some err =>
    refine ⟨⟨fun _ => ?_, fun _ => rfl⟩, fun _ => rfl, fun h => absurd h (by simp)⟩
    rintro ⟨t, ht⟩
    have h := trimPathCheck_append [] p t
    simp only [List.nil_append, List.length_nil, ht] at h
    rw [h] at hchk
    exact absurd hchk (by simp)
  | none =>
    have hpre := trimPathCheck_none srq.relpath p 0 hchk
    simp only [List.drop_zero] at hpre
    refine ⟨⟨fun h => absurd h (by simp), fun h => absurd hpre h⟩,
      fun h => absurd h (by simp), fun _ => ⟨rfl, ?_⟩⟩
    obtain ⟨t, ht⟩ := hpre
    simp [← ht]

end TrimPath

/-! ## The tree info handed down by the initialization traversal -/

section Binding

variable {H E : Type}

theorem subtree_eq_inheritBinding (ptree : Option (RouteTree E)) (mnt : RouteTree E)
    (hreach : ∀ p, ptree = some p → p.BindMethod = "" ∨ mnt.BindMethod = "") :
    subtree ptree mnt = inheritBinding ptree mnt := by
  cases ptree with
  | none => rfl
  | some p =>
    simp only [subtree, inheritBinding]
    have hm : (if p.BindMethod ≠ "" then p.BindMethod else mnt.BindMethod) =
        (if mnt.BindMethod ≠ "" then mnt.BindMethod else p.BindMethod) := by
      rcases hreach p rfl with h | h
      · by_cases hc : mnt.BindMethod = "" <;> simp [h, hc]
      · by_cases hc : p.BindMethod = "" <;> simp [h, hc]
    have he : (match mnt.Exten with
        | some e => some e
        | none => p.Exten) = (if mnt.Exten.isSome then mnt.Exten else p.Exten) := by
      cases mnt.Exten <;> simp
    rw [hm, he]

/-- Claim C16: the tree info that the initialization traversal of a router hands
to the handler of a registered entry is the one the inheritance rule of the
specification gives (`inheritBinding`: the entry's own method and extension
where set and the parent's otherwise, the parent's path followed by the
entry's, the entry's own fragment without parent). It holds for every entry of
a path router under any parent, and for every entry of a method router whose
`InitHandler` returns, which it does exactly when the parent has no bound
method. The fallback handler of a path router gets the parent's tree info as
it is. -/
theorem initHandler_inherits (inst : InstConfig) (ptree : Option (RouteTree E)) :
    (∀ rhnd : frmRtePath H,
      (rhnd.InitHandler inst ptree).2 =
        (match rhnd.rootnode with
          | some rootnode => [(rootnode, ptree)]
          | none => []) ++
        rhnd.nodes.map (fun v =>
          (v.2, some (inheritBinding ptree
            { BindMethod := "", BindPath := v.1, Exten := none })))) ∧
    (∀ rhnd : frmRteREST H,
      ((rhnd.InitHandler inst ptree).1 =
          .ok (rhnd.nodes.map (fun v =>
            (v.2, some (inheritBinding ptree
              { BindMethod := v.1, BindPath := [], Exten := none })))) ∨
        ((∃ msg, (rhnd.InitHandler inst ptree).1 = .panic msg) ∧
          ∃ p, ptree = some p ∧ p.BindMethod ≠ ""))) ∧
    (∀ child : RouteTree E, inheritBinding none child = child) ∧
    (∀ (p child : RouteTree E),
      (inheritBinding (some p) child).BindMethod =
        (if child.BindMethod ≠ "" then child.BindMethod else p.BindMethod) ∧
      (inheritBinding (some p) child).BindPath = p.BindPath ++ child.BindPath ∧
      (inheritBinding (some p) child).Exten =
        (if child.Exten.isSome then child.Exten else p.Exten)) := by
  refine ⟨?_, ?_, fun _ => rfl, fun _ _ => ⟨rfl, rfl, rfl⟩⟩
  · intro rhnd
    simp only [frmRtePath.InitHandler, initHandlerBase, frmRtePath.routeNodes, List.map_map]
    congr 1
    apply List.map_congr_left
    intro v _
    simp only [Function.comp]
    rw [subtree_eq_inheritBinding]
    intro p _
    exact Or.inr rfl
  · intro rhnd
    cases ptree with
    | none =>
      refine Or.inl ?_
      simp only [frmRteREST.InitHandler, initHandlerBase, frmRteREST.routeNodes, List.map_map]
      rfl
    | some p =>
      by_cases hb : p.BindMethod = ""
      · refine Or.inl ?_
        simp only [frmRteREST.InitHandler, initHandlerBase, frmRteREST.routeNodes,
          List.map_map, hb]
        simp only [ne_eq, not_true_eq_false, decide_False, Bool.false_eq_true, if_false,
          Res.ok.injEq]
        apply List.map_congr_left
        intro v _
        simp only [Function.comp]
        rw [subtree_eq_inheritBinding]
        intro p' hp'
        cases hp'
        exact Or.inl hb
      · refine Or.inr
          ⟨⟨"can not initialize REST api, it already binded in parent.", ?_⟩, p, rfl, hb⟩
        simp [frmRteREST.InitHandler, hb]

end Binding

/-! ## The built-in sessions -/

section BuiltinSessions

theorem headerAdd_get (header : Header) (key value : String) :
    mapGet (header.Add key value) key = some ((mapGet header key).getD [] ++ [value]) := by
  unfold Header.Add
  exact mapGet_mapSet_self _ _ _

/-- Claim C17 (counterexample): the error session made by
`CreateErrSession(404, "gone", nil)`, driven twice over an empty header set,
leaves two `Content-Type` values where the first call left one, and its second
`WriteResponse` returns the whole body again; a second `BeginResponse` of the
redirect session to `/new` leaves two `Location` values. -/
theorem second_call_duplicates :
    CreateErrSession 404 "gone" none =
      some ⟨404, "<h1>404 Not Found</h1><p>gone</p>"⟩ ∧
    ((BuiltinSession.err ⟨404, "<h1>404 Not Found</h1><p>gone</p>"⟩).BeginResponse []).2 =
      [("Content-Type", ["text/html;charset=utf-8"])] ∧
    ((BuiltinSession.err ⟨404, "<h1>404 Not Found</h1><p>gone</p>"⟩).BeginResponse
      ((BuiltinSession.err ⟨404, "<h1>404 Not Found</h1><p>gone</p>"⟩).BeginResponse []).2).2 =
      [("Content-Type", ["text/html;charset=utf-8", "text/html;charset=utf-8"])] ∧
    (BuiltinSession.err ⟨404, "<h1>404 Not Found</h1><p>gone</p>"⟩).WriteResponse =
      some "<h1>404 Not Found</h1><p>gone</p>" ∧
    ((BuiltinSession.redir (CreateRedirectSession "/new" 302)).BeginResponse
      ((BuiltinSession.redir (CreateRedirectSession "/new" 302)).BeginResponse []).2).2 =
      [("Location", ["/new", "/new"])] := by
  decide

/-- Claim C17, as amended: the built-in sessions keep no record of having been
driven. A second `BeginResponse` returns the same status and makes the same
header mutation again: none for the not-modified and alias sessions, whose
header set stays as the first call left it, and one more `Content-Type` value
for the error session and one more `Location` value for the redirect session.
A second `WriteResponse` returns the same bytes as the first: none for the
redirect and not-modified sessions, the body again for the error and alias
sessions. -/
theorem builtin_second_call (ses : BuiltinSession) (header : Header) :
    (driveSession ses (driveSession ses header).2.1).1 = (driveSession ses header).1 ∧
    (driveSession ses (driveSession ses header).2.1).2.2 = (driveSession ses header).2.2 ∧
    (match ses with
      | .err e =>
        (ses.BeginResponse header).1 = e.stateCode ∧ ses.WriteResponse = some e.msg ∧
        mapGet (ses.BeginResponse header).2 "Content-Type" =
          some ((mapGet header "Content-Type").getD [] ++ ["text/html;charset=utf-8"]) ∧
        mapGet (ses.BeginResponse (ses.BeginResponse header).2).2 "Content-Type" =
          some ((mapGet header "Content-Type").getD [] ++
            ["text/html;charset=utf-8", "text/html;charset=utf-8"])
      | .redir s =>
        (ses.BeginResponse header).1 = s.code ∧ ses.WriteResponse = none ∧
        mapGet (ses.BeginResponse header).2 "Location" =
          some ((mapGet header "Location").getD [] ++ [s.url]) ∧
        mapGet (ses.BeginResponse (ses.BeginResponse header).2).2 "Location" =
          some ((mapGet header "Location").getD [] ++ [s.url, s.url])
      | .nochange s =>
        (ses.BeginResponse header).1 = s.code ∧ ses.WriteResponse = none ∧
        (ses.BeginResponse header).2 = header ∧
        (ses.BeginResponse (ses.BeginResponse header).2).2 = header
      | .alias _ =>
        (ses.BeginResponse header).1 = 403 ∧
        ses.WriteResponse = some "Nothing content in Alias" ∧
        (ses.BeginResponse header).2 = header ∧
        (ses.BeginResponse (ses.BeginResponse header).2).2 = header) := by
  match ses with
  | .err e =>
    refine ⟨rfl, rfl, rfl, rfl, headerAdd_get _ _ _, ?_⟩
    simp only [BuiltinSession.BeginResponse, errHandle.BeginResponse]
    rw [headerAdd_get, headerAdd_get]
    simp
  | .redir s =>
    refine ⟨rfl, rfl, rfl, rfl, headerAdd_get _ _ _, ?_⟩
    simp only [BuiltinSession.BeginResponse, redirSession.BeginResponse,
      ht3xxSession.BeginResponse]
    rw [headerAdd_get, headerAdd_get]
    simp
  | .nochange s => exact ⟨rfl, rfl, rfl, rfl, rfl, rfl⟩
  | .alias s => exact ⟨rfl, rfl, rfl, rfl, rfl, rfl⟩

/-- Claim C18: for a status code with an entry in `httpErrorTitles`,
`CreateErrSession(code, m, d)` is a session whose `EnterServer` returns no
redirect and no error, whose `BeginResponse` returns `code`, and whose
`WriteResponse` returns the bytes of `<h1>{code} {title}</h1><p>{m}</p>`
followed by `d` when `d` is given and by nothing otherwise; for a code without
entry it returns no session. -/
theorem createErrSession_contract (code : Int) (m : String) (d : Option String) :
    (∀ title, errorTitle code = some title →
      ∃ e, CreateErrSession code m d = some e ∧
        e.EnterServer = ("", none) ∧
        (∀ header, (e.BeginResponse header).1 = code) ∧
        e.WriteResponse =
          "<h1>" ++ toString code ++ " " ++ title ++ "</h1><p>" ++ m ++ "</p>" ++ d.getD "" ∧
        (BuiltinSession.err e).WriteResponse =
          some ("<h1>" ++ toString code ++ " " ++ title ++ "</h1><p>" ++ m ++ "</p>" ++
            d.getD "")) ∧
    (errorTitle code = none → CreateErrSession code m d = none) ∧
    (errorTitle code = (httpErrorTitles.find? (fun e => e.1 = code)).map (fun e => e.2)) := by
  refine ⟨?_, ?_, rfl⟩
  · intro title ht
    cases d with
    | none =>
      refine ⟨⟨code, "<h1>" ++ toString code ++ " " ++ title ++ "</h1><p>" ++ m ++ "</p>"⟩,
        by simp only [CreateErrSession, ht], rfl, fun _ => rfl, ?_, ?_⟩
      · simp [errHandle.WriteResponse]
      · simp [BuiltinSession.WriteResponse, errHandle.WriteResponse]
    | some dbg =>
      refine ⟨⟨code,
          "<h1>" ++ toString code ++ " " ++ title ++ "</h1><p>" ++ m ++ "</p>" ++ dbg⟩,
        by simp only [CreateErrSession, ht], rfl, fun _ => rfl, ?_, ?_⟩
      · simp [errHandle.WriteResponse]
      · simp [BuiltinSession.WriteResponse, errHandle.WriteResponse]
  · intro hn
    simp [CreateErrSession, hn]

/-- Claim C19: the session `CreateAliasSession(t)` redirects internally to a
fixed target: `EnterServer` returns the non-empty target (`t`, or `/` when `t`
is empty) and no error; asked for a response, `BeginResponse` returns 403
without touching the header set and `WriteResponse` returns a non-empty
body. -/
theorem createAliasSession_contract (t : String) :
    (CreateAliasSession t).EnterServer = (if t = "" then "/" else t, none) ∧
    (CreateAliasSession t).EnterServer.1 ≠ "" ∧
    (∀ header, (CreateAliasSession t).BeginResponse header = (403, header)) ∧
    (CreateAliasSession t).WriteResponse = some "Nothing content in Alias" ∧
    (∃ body, (BuiltinSession.alias (CreateAliasSession t)).WriteResponse = some body ∧
      body ≠ "") := by
  refine ⟨rfl, ?_, fun _ => rfl, rfl, "Nothing content in Alias", rfl, by decide⟩
  simp only [CreateAliasSession, aliasSession.EnterServer]
  by_cases ht : t = ""
  · simp [ht]
  · simp [ht]

end BuiltinSessions

/-! ## `splitePath` -/

section SplitePath

theorem splitOnP_piece (p : Char → Bool) (xs : List Char) :
    ∀ piece ∈ xs.splitOnP p, ∀ y ∈ piece, p y = false := by
  induction xs with
  | nil =>
    intro piece hmem y hy
    simp only [List.splitOnP_nil, List.mem_singleton] at hmem
    subst hmem
    simp at hy
  | cons x rest ih =>
    intro piece hmem y hy
    rw [List.splitOnP_cons] at hmem
    by_cases hx : p x = true
    · simp only [hx, if_true] at hmem
      rcases List.mem_cons.mp hmem with hm | hm
      · subst hm; simp at hy
      · exact ih piece hm y hy
    · simp only [hx, if_false] at hmem
      cases hsp : List.splitOnP p rest with
      | nil => simp [hsp, List.modifyHead] at hmem
      | cons hd tl =>
        rw [hsp] at hmem ih
        simp only [List.modifyHead] at hmem
        rcases List.mem_cons.mp hmem with hm | hm
        · subst hm
          simp only [List.mem_cons] at hy
          rcases hy with hy | hy
          · subst hy
            cases hpx : p y with
            | false => rfl
            | true => exact absurd hpx hx
          · exact ih hd (List.mem_cons_self _ _) y hy
        · exact ih piece (List.mem_cons_of_mem _ hm) y hy

theorem splitOn_slash_piece (xs piece : List Char) (hmem : piece ∈ xs.splitOn '/') :
    '/' ∉ piece := by
  intro hin
  have := splitOnP_piece (fun c => c == '/') xs piece hmem '/' hin
  simp at this

theorem string_eq_empty_iff (s : String) : s = "" ↔ s.data = [] := by
  cases s with
  | mk l => simp [String.ext_iff]

/-- The pieces `splitePath` returns are the non-empty pieces of the whole
string between `/` characters: dropping one leading `/` first only drops an
empty first piece. -/
theorem splitePath_eq_nonEmptyPieces (s : String) : splitePath s = nonEmptyPieces s := by
  cases s with
  | mk l =>
    unfold splitePath nonEmptyPieces
    cases l with
    | nil => simp [String.ext_iff]
    | cons c t =>
      by_cases hc : c = '/'
      · subst hc
        cases t with
        | nil =>
          have h1 : (String.mk ['/'] = "" ∨ String.mk ['/'] = "/") := Or.inr rfl
          simp only [h1, if_true]
          decide
        | cons c2 t2 =>
          have h1 : ¬ (String.mk ('/' :: c2 :: t2) = "" ∨ String.mk ('/' :: c2 :: t2) = "/") := by
            simp [String.ext_iff]
          simp only [h1, if_false, List.head?_cons, if_true, List.tail_cons]
          have h2 : ('/' :: c2 :: t2).splitOn '/' = [] :: (c2 :: t2).splitOn '/' := by
            simp only [List.splitOn]
            rw [List.splitOnP_cons]
            simp
          rw [h2]
          simp
      · have h1 : ¬ (String.mk (c :: t) = "" ∨ String.mk (c :: t) = "/") := by
          simp only [String.ext_iff, not_or]
          constructor
          · simp
          · intro h
            have : c = '/' := by
              have h' : c :: t = ['/'] := h
              exact (List.cons.inj h').1
            exact hc this
        have h3 : ¬ ((String.mk (c :: t)).data.head? = some '/') := by
          simp [hc]
        simp only [h1, if_false, h3]

theorem mem_nonEmptyPieces (s seg : String) (hmem : seg ∈ nonEmptyPieces s) :
    seg ≠ "" ∧ '/' ∉ seg.data := by
  unfold nonEmptyPieces at hmem
  simp only [List.mem_map, List.mem_filter, decide_eq_true_eq] at hmem
  obtain ⟨piece, ⟨hin, hne⟩, hseg⟩ := hmem
  subst hseg
  refine ⟨?_, splitOn_slash_piece _ _ hin⟩
  intro hemp
  exact hne ((string_eq_empty_iff _).mp hemp)

theorem intercalateGo_data (sep : String) (as : List String) :
    ∀ acc : String, (String.intercalate.go acc sep as).data =
      acc.data ++ (as.map (fun a => sep.data ++ a.data)).flatten := by
  induction as with
  | nil => intro acc; simp [String.intercalate.go]
  | cons a rest ih =>
    intro acc
    simp only [String.intercalate.go, ih, String.data_append, List.map_cons,
      List.flatten_cons, List.append_assoc]

theorem splitOn_joined (as : List String) (hfree : ∀ seg ∈ as, '/' ∉ seg.data) :
    ∀ a : String, '/' ∉ a.data →
      (a.data ++ (as.map (fun b => "/".data ++ b.data)).flatten).splitOn '/' =
        a.data :: as.map String.data := by
  induction as with
  | nil =>
    intro a ha
    simp only [List.map_nil, List.flatten_nil, List.append_nil]
    apply List.splitOnP_eq_single
    intro x hx hp
    simp only [beq_iff_eq] at hp
    subst hp
    exact ha hx
  | cons b rest ih =>
    intro a ha
    have hb : '/' ∉ b.data := hfree b (by simp)
    have hrest : ∀ seg ∈ rest, '/' ∉ seg.data := fun seg h => hfree seg (by simp [h])
    have hdata : "/".data = ['/'] := rfl
    simp only [List.map_cons, List.flatten_cons, hdata, List.singleton_append,
      List.cons_append, List.nil_append]
    have hfirst := List.splitOnP_first (fun c => c == '/') a.data
      (by
        intro x hx hp
        simp only [beq_iff_eq] at hp
        subst hp
        exact ha hx)
      '/' (by simp)
      (b.data ++ (rest.map (fun b => "/".data ++ b.data)).flatten)
    simp only [hdata, List.singleton_append] at hfirst
    simp only [List.splitOn]
    rw [hfirst]
    have := ih hrest b hb
    simp only [List.splitOn, hdata, List.singleton_append] at this
    rw [this]

/-- Joining non-empty `/`-free segments after a leading `/` and splitting the
result gives the segments back. -/
theorem splitePath_joined (L : List String) (hseg : ∀ seg ∈ L, seg ≠ "" ∧ '/' ∉ seg.data) :
    splitePath ("/" ++ String.intercalate "/" L) = L := by
  rw [splitePath_eq_nonEmptyPieces]
  cases L with
  | nil => decide
  | cons a as =>
    have ha : '/' ∉ a.data := (hseg a (by simp)).2
    have has : ∀ seg ∈ as, '/' ∉ seg.data := fun seg h => (hseg seg (by simp [h])).2
    have hdata : ("/" ++ String.intercalate "/" (a :: as)).data =
        '/' :: (a.data ++ (as.map (fun b => "/".data ++ b.data)).flatten) := by
      simp only [String.intercalate, String.data_append, intercalateGo_data]
      rfl
    unfold nonEmptyPieces
    rw [hdata]
    have hsplit : ('/' :: (a.data ++ (as.map (fun b => "/".data ++ b.data)).flatten)).splitOn '/' =
        [] :: a.data :: as.map String.data := by
      have h := splitOn_joined as has a ha
      simp only [List.splitOn] at h ⊢
      rw [List.splitOnP_cons, h]
      simp
    rw [hsplit]
    have hne : ∀ seg ∈ a :: as, seg.data ≠ [] := by
      intro seg hmem
      have := (hseg seg hmem).1
      rwa [Ne, string_eq_empty_iff] at this
    have hfilter : (([] : List Char) :: a.data :: as.map String.data).filter (fun sp => sp ≠ []) =
        (a :: as).map String.data := by
      rw [List.filter_cons_of_neg (by simp)]
      rw [← List.map_cons String.data a as]
      apply List.filter_eq_self.mpr
      intro piece hmem
      simp only [List.mem_map] at hmem
      obtain ⟨seg, hseg', rfl⟩ := hmem
      simpa using hne seg hseg'
    rw [hfilter, List.map_map]
    have : (String.mk ∘ String.data) = id := by
      funext x
      cases x
      rfl
    rw [this, List.map_id]

/-- Claim C20: `splitePath(s)` returns, in their order, exactly the non-empty
pieces of `s` between `/` characters (the pieces being those whose joining by
`/` gives `s` back, none of which holds a `/`); every returned segment is
non-empty and holds no `/`; for every list `L` of non-empty segments without
`/`, `splitePath` of `/` followed by `L` joined by `/` is `L`. Hence the full
and relative path that `createReqObj` builds, and those a redirect to a target
split by `splitePath` builds, hold only non-empty segments. -/
theorem splitePath_contract :
    (∀ s : String,
      splitePath s = ((s.data.splitOn '/').filter (fun sp => sp ≠ [])).map String.mk ∧
      ['/'].intercalate (s.data.splitOn '/') = s.data ∧
      (∀ piece ∈ s.data.splitOn '/', '/' ∉ piece)) ∧
    (∀ (s seg : String), seg ∈ splitePath s → seg ≠ "" ∧ '/' ∉ seg.data) ∧
    (∀ L : List String, (∀ seg ∈ L, seg ≠ "" ∧ '/' ∉ seg.data) →
      splitePath ("/" ++ String.intercalate "/" L) = L) ∧
    (∀ (method urlPath seg : String),
      (seg ∈ (createReqObj method urlPath).fullpath ∨
        seg ∈ (createReqObj method urlPath).relpath) → seg ≠ "") ∧
    (∀ (srq : svrRspObj) (rdir seg : String),
      (seg ∈ (srq.redirect (splitePath rdir)).fullpath ∨
        seg ∈ (srq.redirect (splitePath rdir)).relpath) → seg ≠ "") := by
  have hmem : ∀ (s seg : String), seg ∈ splitePath s → seg ≠ "" ∧ '/' ∉ seg.data := by
    intro s seg h
    rw [splitePath_eq_nonEmptyPieces] at h
    exact mem_nonEmptyPieces s seg h
  refine ⟨fun s => ⟨splitePath_eq_nonEmptyPieces s, List.intercalate_splitOn _ _,
    fun piece h => splitOn_slash_piece _ _ h⟩, hmem, splitePath_joined, ?_, ?_⟩
  · intro method urlPath seg h
    rcases h with h | h <;> exact (hmem urlPath seg h).1
  · intro srq rdir seg h
    rcases h with h | h <;> exact (hmem rdir seg h).1

end SplitePath

/-! ## The matched prefix and the discarded error of `trimPath` -/

section MatchedPrefix

variable {H : Type}

theorem findPathLoop_stack_prefix (np : Bool) (P : List String) (hne : ∀ seg ∈ P, seg ≠ "") :
    ∀ (m : PathMap H) (i : Bool) (s : List String),
      ∃ added, (findPathLoop np P m i s).1.2.2 = s ++ added ∧ added <+: P := by
  induction P with
  | nil => intro m i s; exact ⟨[], by simp [findPathLoop], List.nil_prefix⟩
  | cons l rest ih =>
    intro m i s
    have hl : l ≠ "" := hne l (by simp)
    have hrest : ∀ seg ∈ rest, seg ≠ "" := fun seg h => hne seg (by simp [h])
    have step : ∀ (m' : PathMap H) (i' : Bool),
        ∃ added, (findPathLoop np rest m' i' (s ++ [l])).1.2.2 = s ++ added ∧
          added <+: l :: rest := by
      intro m' i'
      obtain ⟨added, hs, hp⟩ := ih hrest m' i' (s ++ [l])
      exact ⟨l :: added, by simp [hs], (List.prefix_cons_inj l).mpr hp⟩
    simp only [findPathLoop, hl, if_false]
    cases hg : mapGet m l with
    | none =>
      cases np with
      | true => simp only [if_true]; exact step _ _
      | false => exact ⟨[], by simp, List.nil_prefix⟩
    | some nd =>
      cases nd with
      | hnd h0 => exact ⟨[l], rfl, by simp⟩
      | dir sub => exact step _ _

/-- Claim C24: for every trie of a path router and every segment list `Q`
without empty segment, the matched prefix that `findPath` and `findHandle`
return for `Q` is literally a prefix of `Q`; so for a request whose relative
path has no empty segment, the `trimPath` call of `BeginSession`, whose error
is discarded, returns no error. -/
theorem matched_step_is_literal (rhnd : frmRtePath H) (Q : List String) (newpath : Bool)
    (hne : ∀ seg ∈ Q, seg ≠ "") :
    (rhnd.findPath Q newpath).1.2.2 <+: Q ∧
    (rhnd.findHandle Q).2.2 <+: Q ∧
    (∀ req : svrRspObj, req.relpath = Q →
      (req.trimPath (rhnd.findHandle (req.GetPath true)).2.2).1 = none) := by
  have hpath : ∀ np, (rhnd.findPath Q np).1.2.2 <+: Q := by
    intro np
    unfold frmRtePath.findPath
    by_cases hp : Q.length < 1
    · simp only [hp, if_true, frmRtePath.getRoot]
      cases rhnd.rootnode <;> exact List.nil_prefix
    · simp only [hp, if_false]
      obtain ⟨added, hs, hpre⟩ := findPathLoop_stack_prefix np Q hne rhnd.allpath false []
      rw [hs]
      simpa using hpre
  have hhandle : (rhnd.findHandle Q).2.2 <+: Q := by
    have h := hpath false
    unfold frmRtePath.findHandle
    generalize (rhnd.findPath Q false).1 = res at h
    obtain ⟨node, i0, s0⟩ := res
    cases node with
    | none => exact List.nil_prefix
    | some nd =>
      cases nd with
      | hnd h0 => exact h
      | dir sub => exact List.nil_prefix
  refine ⟨hpath newpath, hhandle, ?_⟩
  intro req hrel
  have hget : req.GetPath true = Q := by simp [svrRspObj.GetPath, hrel]
  rw [hget]
  obtain ⟨t, ht⟩ := hhandle
  rw [trimPath_append req _ t (by rw [hrel, ht])]

theorem matched_step_is_literal_witness :
    (routerApi.findHandle ["api", "v1", "users"]).2.2 = ["api", "v1"] ∧
    (routerApi.findPath ["api", "v2"] false).1.2.2 <+: ["api", "v2"] ∧
    ((reqGET "/api/v1/users").trimPath
      (routerApi.findHandle ((reqGET "/api/v1/users").GetPath true)).2.2).1 = none :=
  ⟨by decide,
    (matched_step_is_literal routerApi ["api", "v2"] false (by decide)).1,
    (matched_step_is_literal routerApi ["api", "v1", "users"] false (by decide)).2.2
      (reqGET "/api/v1/users") (by decide)⟩

end MatchedPrefix

/-! ## `BasePath` -/

section BasePath

/-- Claim C25 (code defect): for the request `/a/b/c` after a router has
consumed `/a/b`, the relative path `c` is a suffix of the full path and the
consumed part is `/a/b`, but `BasePath` returns `/a`: its segments followed by
the relative path are `a`, `c`, not the full path. For the untouched request
`/a/b`, where nothing is consumed and the base path is `/`, `BasePath` returns
`/a/b`. -/
theorem basePath_takes_wrong_segments :
    ((reqGET "/a/b/c").trimPath ["a", "b"]).2.fullpath = ["a", "b", "c"] ∧
    ((reqGET "/a/b/c").trimPath ["a", "b"]).2.relpath = ["c"] ∧
    ((reqGET "/a/b/c").trimPath ["a", "b"]).2.BasePath = "/a" ∧
    consumedPath ((reqGET "/a/b/c").trimPath ["a", "b"]).2 = "/a/b" ∧
    splitePath ((reqGET "/a/b/c").trimPath ["a", "b"]).2.BasePath ++
      ((reqGET "/a/b/c").trimPath ["a", "b"]).2.relpath = ["a", "c"] ∧
    (reqGET "/a/b").BasePath = "/a/b" ∧
    consumedPath (reqGET "/a/b") = "/" := by
  decide

end BasePath

end Wframe
